import Mathlib

/-!
# Verification of the silly-gov local-network chat node (src/src/main.js)

A shallow embedding, in Lean 4, of the core runtime of the Electron
local-network chat application: the crypto channel (AES-256-GCM sealing as
performed by `encrypt`/`decrypt`), the MD5-based room-to-port map
(`getPortForRoom`), and the session state machine of the main process
(`handleUDPMessage`, the `join-room` / `send-message` IPC handlers,
`cleanupPeers` and its scheduled deletions, `broadcastMessage`).

Conventions of the embedding:

* JS byte buffers are `List Nat` with each element intended `< 256`;
  machine words are `Nat` reduced with explicit `% 2 ^ w`.
* JS values that may be `undefined`/`null` are `Option _`; JS string
  truthiness (`""` is falsy) is modelled explicitly where the source
  relies on it.
* Randomness (`crypto.randomBytes`) and fallible OS operations (socket
  `bind`) are supplied as explicit arguments, so every function is a pure,
  executable Lean definition; `JSON.parse` applied to decrypted payload
  bytes is likewise an explicit argument (`parse`), since its behaviour is
  that of the JS standard library, not of this repository.
* The library primitives the source names — AES-256-GCM (NIST SP 800-38D,
  including the non-96-bit-IV `J0` derivation, since the source passes a
  16-byte IV), MD5, SHA-256 / HMAC / PBKDF2 — are implemented here in
  full so that everything evaluates.
-/

namespace LocalChat

/-! ## Bytes and lowercase hex, as produced by `Buffer.toString('hex')`
and consumed by `Buffer.from(str, 'hex')` -/

/-- The sixteen lowercase hex digits, indexable by value, generated from
the character codes. -/
def hexDigits : List Char :=
  (List.range 16).map fun i => Char.ofNat (if i < 10 then 48 + i else 87 + i)

/-- Hex digit for a nibble value. -/
def hexDigit (n : Nat) : Char := hexDigits.getD n '?'

/-- Value of a hex digit character (both cases, as `Buffer.from` accepts),
computed from the character code. -/
def hexDigitVal (c : Char) : Option Nat :=
  let n := c.toNat
  if 48 ≤ n ∧ n ≤ 57 then some (n - 48)
  else if 97 ≤ n ∧ n ≤ 102 then some (n - 87)
  else if 65 ≤ n ∧ n ≤ 70 then some (n - 55)
  else none

/-- Lowercase hex encoding of a byte list, two digits per byte. -/
def hexEncode : List Nat → List Char
  | [] => []
  | b :: bs => hexDigit (b / 16) :: hexDigit (b % 16) :: hexEncode bs

/-- Hex decoding; `none` on an odd length or a non-hex character. -/
def hexDecode : List Char → Option (List Nat)
  | [] => some []
  | [_] => none
  | c1 :: c2 :: cs =>
    match hexDigitVal c1, hexDigitVal c2, hexDecode cs with
    | some h, some l, some r => some ((16 * h + l) :: r)
    | _, _, _ => none

/-- String front-end for `hexEncode`, the shape `Buffer.toString('hex')` returns. -/
def hexEncodeS (bs : List Nat) : String := String.mk (hexEncode bs)

/-- String front-end for `hexDecode`, the shape `Buffer.from(s, 'hex')` consumes. -/
def hexDecodeS (s : String) : Option (List Nat) := hexDecode s.data

theorem hexDigitVal_hexDigit {n : Nat} (h : n < 16) :
    hexDigitVal (hexDigit n) = some n := by
  interval_cases n <;> rfl

theorem hexDecode_hexEncode {bs : List Nat} (h : ∀ b ∈ bs, b < 256) :
    hexDecode (hexEncode bs) = some bs := by
  induction bs with
  | nil => rfl
  | cons b bs ih =>
    have hb : b < 256 := h b (List.mem_cons_self _ _)
    have hhi : b / 16 < 16 := Nat.div_lt_of_lt_mul (by omega)
    have hlo : b % 16 < 16 := Nat.mod_lt _ (by omega)
    have hrest : hexDecode (hexEncode bs) = some bs :=
      ih (fun x hx => h x (List.mem_cons_of_mem _ hx))
    have hsum : 16 * (b / 16) + b % 16 = b := Nat.div_add_mod b 16
    simp [hexEncode, hexDecode, hexDigitVal_hexDigit hhi, hexDigitVal_hexDigit hlo,
      hrest, hsum]

theorem hexDecodeS_hexEncodeS {bs : List Nat} (h : ∀ b ∈ bs, b < 256) :
    hexDecodeS (hexEncodeS bs) = some bs := by
  simpa [hexDecodeS, hexEncodeS] using hexDecode_hexEncode h

theorem length_hexEncode (bs : List Nat) : (hexEncode bs).length = 2 * bs.length := by
  induction bs with
  | nil => rfl
  | cons b bs ih => simp [hexEncode, ih]; omega

/-! ## AES-256 block cipher (FIPS 197), the `aes-256-gcm` core named by
`crypto.createCipheriv` in `encrypt`/`decrypt`.

The 16-byte state is kept as a flat list in input order: byte `4 * c + r`
is state entry `s[r][c]`. -/

/-- The AES S-box. -/
def sbox : List Nat :=
  [99, 124, 119, 123, 242, 107, 111, 197, 48, 1, 103, 43, 254, 215, 171, 118,
   202, 130, 201, 125, 250, 89, 71, 240, 173, 212, 162, 175, 156, 164, 114, 192,
   183, 253, 147, 38, 54, 63, 247, 204, 52, 165, 229, 241, 113, 216, 49, 21,
   4, 199, 35, 195, 24, 150, 5, 154, 7, 18, 128, 226, 235, 39, 178, 117,
   9, 131, 44, 26, 27, 110, 90, 160, 82, 59, 214, 179, 41, 227, 47, 132,
   83, 209, 0, 237, 32, 252, 177, 91, 106, 203, 190, 57, 74, 76, 88, 207,
   208, 239, 170, 251, 67, 77, 51, 133, 69, 249, 2, 127, 80, 60, 159, 168,
   81, 163, 64, 143, 146, 157, 56, 245, 188, 182, 218, 33, 16, 255, 243, 210,
   205, 12, 19, 236, 95, 151, 68, 23, 196, 167, 126, 61, 100, 93, 25, 115,
   96, 129, 79, 220, 34, 42, 144, 136, 70, 238, 184, 20, 222, 94, 11, 219,
   224, 50, 58, 10, 73, 6, 36, 92, 194, 211, 172, 98, 145, 149, 228, 121,
   231, 200, 55, 109, 141, 213, 78, 169, 108, 86, 244, 234, 101, 122, 174, 8,
   186, 120, 37, 46, 28, 166, 180, 198, 232, 221, 116, 31, 75, 189, 139, 138,
   112, 62, 181, 102, 72, 3, 246, 14, 97, 53, 87, 185, 134, 193, 29, 158,
   225, 248, 152, 17, 105, 217, 142, 148, 155, 30, 135, 233, 206, 85, 40, 223,
   140, 161, 137, 13, 191, 230, 66, 104, 65, 153, 45, 15, 176, 84, 187, 22]

/-- S-box substitution of one byte. -/
def subByte (b : Nat) : Nat := sbox.getD b 0

/-- Multiplication by `x` in GF(2^8) modulo `x^8 + x^4 + x^3 + x + 1`. -/
def xtime (b : Nat) : Nat := ((2 * b) % 256) ^^^ (if 128 ≤ b then 27 else 0)

/-- Multiplication by 3 in GF(2^8). -/
def mul3 (b : Nat) : Nat := xtime b ^^^ b

/-- Assemble a 32-bit word from four bytes, big-endian. -/
def word32 (b0 b1 b2 b3 : Nat) : Nat :=
  ((b0 % 256) * 16777216 + (b1 % 256) * 65536 + (b2 % 256) * 256 + b3 % 256)

/-- Split a 32-bit word into four bytes, big-endian. -/
def wordBytes (w : Nat) : List Nat :=
  [w / 16777216 % 256, w / 65536 % 256, w / 256 % 256, w % 256]

/-- Rotate a 32-bit word left by one byte. -/
def rotWord (w : Nat) : Nat := (w % 16777216) * 256 + (w / 16777216) % 256

/-- Apply the S-box to each byte of a 32-bit word. -/
def subWord (w : Nat) : Nat :=
  match wordBytes w with
  | [b0, b1, b2, b3] => word32 (subByte b0) (subByte b1) (subByte b2) (subByte b3)
  | _ => 0

/-- AES round constants for AES-256 key expansion (rounds 1..7). -/
def rcon : List Nat := [1, 2, 4, 8, 16, 32, 64]

/-- One step of the AES-256 key schedule: extend the word list by one word. -/
def ksStep (ws : List Nat) : List Nat :=
  let i := ws.length
  let temp := ws.getD (i - 1) 0
  let temp :=
    if i % 8 = 0 then subWord (rotWord temp) ^^^ (rcon.getD (i / 8 - 1) 0) * 16777216
    else if i % 8 = 4 then subWord temp
    else temp
  ws ++ [ws.getD (i - 8) 0 ^^^ temp]

/-- AES-256 key expansion: 8 key words extended to 60 round-key words. -/
def keyExpansion (key : List Nat) : List Nat :=
  let k := key.map (· % 256)
  let init := (List.range 8).map fun i =>
    word32 (k.getD (4 * i) 0) (k.getD (4 * i + 1) 0) (k.getD (4 * i + 2) 0)
      (k.getD (4 * i + 3) 0)
  (List.range 52).foldl (fun ws _ => ksStep ws) init

/-- Round key `r` as 16 bytes in state order (word `4r + c` covers column `c`). -/
def roundKey (ws : List Nat) (r : Nat) : List Nat :=
  wordBytes (ws.getD (4 * r) 0) ++ wordBytes (ws.getD (4 * r + 1) 0) ++
    wordBytes (ws.getD (4 * r + 2) 0) ++ wordBytes (ws.getD (4 * r + 3) 0)

/-- AddRoundKey: xor the state with a round key. -/
def addRoundKey (st rk : List Nat) : List Nat :=
  List.zipWith (fun a b => a ^^^ b) st rk

/-- SubBytes: S-box each state byte. -/
def subBytes (st : List Nat) : List Nat := st.map subByte

/-- ShiftRows: row `r` rotates left by `r`; flat index `j = 4c + r`. -/
def shiftRows (st : List Nat) : List Nat :=
  (List.range 16).map fun j => st.getD (4 * ((j / 4 + j % 4) % 4) + j % 4) 0

/-- MixColumns: multiply each state column by the fixed AES polynomial matrix. -/
def mixColumns (st : List Nat) : List Nat :=
  (List.range 16).map fun j =>
    let c := j / 4
    let a0 := st.getD (4 * c) 0
    let a1 := st.getD (4 * c + 1) 0
    let a2 := st.getD (4 * c + 2) 0
    let a3 := st.getD (4 * c + 3) 0
    if j % 4 = 0 then xtime a0 ^^^ mul3 a1 ^^^ a2 ^^^ a3
    else if j % 4 = 1 then a0 ^^^ xtime a1 ^^^ mul3 a2 ^^^ a3
    else if j % 4 = 2 then a0 ^^^ a1 ^^^ xtime a2 ^^^ mul3 a3
    else mul3 a0 ^^^ a1 ^^^ a2 ^^^ xtime a3

/-- One middle AES round. -/
def aesRound (ws : List Nat) (st : List Nat) (r : Nat) : List Nat :=
  addRoundKey (mixColumns (shiftRows (subBytes st))) (roundKey ws r)

/-- AES-256 encryption of one 16-byte block. -/
def aesEncryptBlock (key block : List Nat) : List Nat :=
  let ws := keyExpansion key
  let st0 := addRoundKey (block.map (· % 256)) (roundKey ws 0)
  let stMid := (List.range 13).foldl (fun st r => aesRound ws st (r + 1)) st0
  addRoundKey (shiftRows (subBytes stMid)) (roundKey ws 14)

/-! ## GCM mode (NIST SP 800-38D) over the AES-256 core.

Blocks are 128-bit `Nat`s assembled big-endian from bytes. The source
passes a 16-byte IV, so the general (non-96-bit) `J0` derivation applies. -/

/-- Big-endian byte-list to `Nat`. -/
def bytesToNat (bs : List Nat) : Nat := bs.foldl (fun acc b => acc * 256 + b % 256) 0

/-- A `Nat` as 16 bytes, big-endian. -/
def natToBytes16 (n : Nat) : List Nat :=
  (List.range 16).map fun i => n / 256 ^ (15 - i) % 256

/-- Split a list into chunks of at most `k` elements; the fuel is bounded
by the list length so the recursion is structural (and hence computes). -/
def chunksGo (k : Nat) : Nat → List Nat → List (List Nat)
  | _, [] => []
  | 0, _ :: _ => []
  | fuel + 1, b :: bs => (b :: bs).take k :: chunksGo k fuel ((b :: bs).drop k)

/-- Split a byte list into chunks of at most 16 bytes. -/
def chunks16 (l : List Nat) : List (List Nat) := chunksGo 16 l.length l

/-- A byte string as zero-padded 128-bit GHASH blocks. -/
def ghashBlocks (bs : List Nat) : List Nat :=
  (chunks16 bs).map fun c => bytesToNat (c ++ List.replicate (16 - c.length) 0)

/-- The GHASH reduction constant `R = 0xe1 · x^120`. -/
def gcmR : Nat := 0xe1 * 2 ^ 120

/-- Multiplication in GF(2^128) with the GCM bit order: bit 127 of the
`Nat` is the polynomial's constant-term side per SP 800-38D. -/
def gmul128 (x y : Nat) : Nat :=
  ((List.range 128).foldl
    (fun zv i =>
      let z := if x.testBit (127 - i) then zv.1 ^^^ zv.2 else zv.1
      let v := if zv.2.testBit 0 then (zv.2 / 2) ^^^ gcmR else zv.2 / 2
      (z, v))
    (0, y)).1

/-- GHASH of a block list under hash subkey `h`. -/
def ghashList (h : Nat) (blocks : List Nat) : Nat :=
  blocks.foldl (fun y x => gmul128 (y ^^^ x) h) 0

/-- The GCM hash subkey: the cipher applied to the zero block. -/
def gcmH (key : List Nat) : Nat := bytesToNat (aesEncryptBlock key (List.replicate 16 0))

/-- The pre-counter block `J0`: the 96-bit-IV shortcut, else the GHASH of
the padded IV and its bit length. -/
def gcmJ0 (key iv : List Nat) : Nat :=
  if iv.length = 12 then bytesToNat iv * 2 ^ 32 + 1
  else ghashList (gcmH key) (ghashBlocks iv ++ [(8 * iv.length) % 2 ^ 64])

/-- Increment the low 32 bits of a counter block. -/
def inc32 (n : Nat) : Nat := n / 2 ^ 32 * 2 ^ 32 + (n % 2 ^ 32 + 1) % 2 ^ 32

/-- CTR keystream: `n` bytes from counter blocks `icb, inc32 icb, …`. -/
def keystream (key : List Nat) (icb : Nat) (n : Nat) : List Nat :=
  (((List.range ((n + 15) / 16)).map fun i =>
    aesEncryptBlock key (natToBytes16 (inc32^[i] icb))).flatten).take n

/-- CTR en/decryption: xor the data with the keystream (an involution). -/
def ctrCrypt (key : List Nat) (icb : Nat) (data : List Nat) : List Nat :=
  List.zipWith (fun a b => a ^^^ b) data (keystream key icb data.length)

/-- The 64-bit-lengths block closing the GHASH input. -/
def gcmLenBlock (aadLen ctLen : Nat) : Nat :=
  (8 * aadLen) % 2 ^ 64 * 2 ^ 64 + (8 * ctLen) % 2 ^ 64

/-- The 16-byte GCM authentication tag over the AAD and the ciphertext. -/
def gcmTag (key iv aad ct : List Nat) : List Nat :=
  let h := gcmH key
  let s := ghashList h (ghashBlocks aad ++ ghashBlocks ct ++ [gcmLenBlock aad.length ct.length])
  natToBytes16 (bytesToNat (aesEncryptBlock key (natToBytes16 (gcmJ0 key iv))) ^^^ s)

/-- GCM authenticated encryption: ciphertext and 16-byte tag. -/
def gcmEncrypt (key iv aad pt : List Nat) : List Nat × List Nat :=
  let ct := ctrCrypt key (inc32 (gcmJ0 key iv)) pt
  (ct, gcmTag key iv aad ct)

/-- GCM authenticated decryption: `none` unless the recomputed tag matches. -/
def gcmDecrypt (key iv aad ct tag : List Nat) : Option (List Nat) :=
  if gcmTag key iv aad ct = tag then some (ctrCrypt key (inc32 (gcmJ0 key iv)) ct)
  else none

/-! ## The crypto channel of `main.js` (`encrypt`, lines 65–80;
`decrypt`, lines 82–97) -/

/-- UTF-8 bytes of an ASCII string (every string the source encodes this
way — the AAD literal and room names in the claims — is ASCII). -/
def asciiBytes (s : String) : List Nat := s.data.map Char.toNat

/-- The fixed associated data `Buffer.from('localchat', 'utf8')`. -/
def aadLocalchat : List Nat := asciiBytes "localchat"

/-- The `{iv, encrypted, authTag}` object returned by `encrypt`, every
field a hex string. -/
structure EncryptedData where
  iv : String
  encrypted : String
  authTag : String
  deriving DecidableEq

/-- `encrypt(text, key)`: a fresh IV from `crypto.randomBytes(16)` (the
randomness source is the explicit `randomBytes` argument), AES-256-GCM
with AAD `'localchat'`, every output hex-encoded. -/
def encrypt (randomBytes : Nat → List Nat) (text key : List Nat) : EncryptedData :=
  let iv := randomBytes 16
  let sealed := gcmEncrypt key iv aadLocalchat text
  { iv := hexEncodeS iv, encrypted := hexEncodeS sealed.1, authTag := hexEncodeS sealed.2 }

/-- `decrypt(encryptedData, key)`: hex-decode the fields, AES-256-GCM open
with AAD `'localchat'`; any failure is caught and returned as `null`. -/
def decrypt (encryptedData : EncryptedData) (key : List Nat) : Option (List Nat) :=
  match hexDecodeS encryptedData.iv, hexDecodeS encryptedData.encrypted,
      hexDecodeS encryptedData.authTag with
  | some iv, some ct, some tag => gcmDecrypt key iv aadLocalchat ct tag
  | _, _, _ => none

/-! ### Shape lemmas for the AES/GCM pipeline -/

theorem getD_lt_256 {l : List Nat} (hl : ∀ x ∈ l, x < 256) {d : Nat} (hd : d < 256)
    (n : Nat) : l.getD n d < 256 := by
  rw [List.getD_eq_getElem?_getD]
  cases h : l[n]? with
  | none => simpa using hd
  | some a => simpa using hl a (List.getElem?_mem h)

set_option maxRecDepth 4096 in
theorem sbox_mem_lt : ∀ x ∈ sbox, x < 256 := by decide

theorem subByte_lt (b : Nat) : subByte b < 256 :=
  getD_lt_256 sbox_mem_lt (by norm_num) b

theorem xtime_lt (b : Nat) : xtime b < 256 := by
  have h1 : (2 * b) % 256 < 2 ^ 8 := Nat.mod_lt _ (by norm_num)
  have h2 : (if 128 ≤ b then 27 else 0) < 2 ^ 8 := by split <;> norm_num
  simpa using Nat.xor_lt_two_pow h1 h2

theorem mul3_lt {b : Nat} (hb : b < 256) : mul3 b < 256 := by
  have h1 : xtime b < 2 ^ 8 := by simpa using xtime_lt b
  simpa [mul3] using Nat.xor_lt_two_pow h1 (by simpa using hb)

theorem xor_lt_256 {a b : Nat} (ha : a < 256) (hb : b < 256) : a ^^^ b < 256 := by
  have := Nat.xor_lt_two_pow (n := 8) (by simpa using ha) (by simpa using hb)
  simpa using this

theorem zipWith_xor_lt {as bs : List Nat} (ha : ∀ a ∈ as, a < 256)
    (hb : ∀ b ∈ bs, b < 256) :
    ∀ x ∈ List.zipWith (fun a b => a ^^^ b) as bs, x < 256 := by
  induction as generalizing bs with
  | nil => simp
  | cons a as ih =>
    cases bs with
    | nil => simp
    | cons b bs =>
      intro x hx
      rcases List.mem_cons.mp hx with rfl | hx
      · exact xor_lt_256 (ha a (by simp)) (hb b (by simp))
      · exact ih (fun y hy => ha y (List.mem_cons_of_mem _ hy))
          (fun y hy => hb y (List.mem_cons_of_mem _ hy)) x hx

theorem mem_wordBytes_lt (w : Nat) : ∀ b ∈ wordBytes w, b < 256 := by
  simp only [wordBytes, List.mem_cons, List.not_mem_nil, or_false]
  rintro b (rfl | rfl | rfl | rfl) <;> exact Nat.mod_lt _ (by norm_num)

theorem mem_roundKey_lt (ws : List Nat) (r : Nat) : ∀ b ∈ roundKey ws r, b < 256 := by
  intro b hb
  simp only [roundKey, List.mem_append, or_assoc] at hb
  rcases hb with hb | hb | hb | hb <;> exact mem_wordBytes_lt _ b hb

theorem length_roundKey (ws : List Nat) (r : Nat) : (roundKey ws r).length = 16 := rfl

theorem mem_subBytes_lt (st : List Nat) : ∀ b ∈ subBytes st, b < 256 := by
  intro b hb
  simp only [subBytes, List.mem_map] at hb
  obtain ⟨a, _, rfl⟩ := hb
  exact subByte_lt a

theorem mem_shiftRows_lt {st : List Nat} (h : ∀ b ∈ st, b < 256) :
    ∀ b ∈ shiftRows st, b < 256 := by
  intro b hb
  simp only [shiftRows, List.mem_map] at hb
  obtain ⟨j, _, rfl⟩ := hb
  exact getD_lt_256 h (by norm_num) _

theorem length_shiftRows (st : List Nat) : (shiftRows st).length = 16 := by
  simp [shiftRows]

theorem mem_mixColumns_lt {st : List Nat} (h : ∀ b ∈ st, b < 256) :
    ∀ b ∈ mixColumns st, b < 256 := by
  intro b hb
  simp only [mixColumns, List.mem_map] at hb
  obtain ⟨j, _, rfl⟩ := hb
  have g : ∀ n, st.getD n 0 < 256 := fun n => getD_lt_256 h (by norm_num) n
  split
  · exact xor_lt_256 (xor_lt_256 (xor_lt_256 (xtime_lt _) (mul3_lt (g _))) (g _)) (g _)
  split
  · exact xor_lt_256 (xor_lt_256 (xor_lt_256 (g _) (xtime_lt _)) (mul3_lt (g _))) (g _)
  split
  · exact xor_lt_256 (xor_lt_256 (xor_lt_256 (g _) (g _)) (xtime_lt _)) (mul3_lt (g _))
  · exact xor_lt_256 (xor_lt_256 (xor_lt_256 (mul3_lt (g _)) (g _)) (g _)) (xtime_lt _)

theorem length_mixColumns (st : List Nat) : (mixColumns st).length = 16 := by
  simp [mixColumns]

theorem length_aesEncryptBlock (key block : List Nat) :
    (aesEncryptBlock key block).length = 16 := by
  simp [aesEncryptBlock, addRoundKey, length_shiftRows, length_roundKey]

theorem mem_aesEncryptBlock_lt (key block : List Nat) :
    ∀ b ∈ aesEncryptBlock key block, b < 256 := by
  intro b hb
  unfold aesEncryptBlock at hb
  exact zipWith_xor_lt (mem_shiftRows_lt (mem_subBytes_lt _)) (mem_roundKey_lt _ _) b hb

theorem length_natToBytes16 (n : Nat) : (natToBytes16 n).length = 16 := by
  simp [natToBytes16]

theorem mem_natToBytes16_lt (n : Nat) : ∀ b ∈ natToBytes16 n, b < 256 := by
  intro b hb
  simp only [natToBytes16, List.mem_map] at hb
  obtain ⟨i, _, rfl⟩ := hb
  exact Nat.mod_lt _ (by norm_num)

theorem length_keystream (key : List Nat) (icb n : Nat) :
    (keystream key icb n).length = n := by
  have hsum : ((List.range ((n + 15) / 16)).map fun i =>
      aesEncryptBlock key (natToBytes16 (inc32^[i] icb))).flatten.length
      = 16 * ((n + 15) / 16) := by
    rw [List.length_flatten, List.map_map]
    have : (List.length ∘ fun i => aesEncryptBlock key (natToBytes16 (inc32^[i] icb)))
        = Function.const Nat 16 := by
      funext i
      simp [Function.comp, length_aesEncryptBlock]
    rw [this, List.map_const, List.sum_replicate]
    simp [Nat.mul_comm]
  have hge : n ≤ 16 * ((n + 15) / 16) := by
    have h1 := Nat.div_add_mod (n + 15) 16
    have h2 : (n + 15) % 16 < 16 := Nat.mod_lt _ (by norm_num)
    omega
  simp [keystream, List.length_take, hsum]
  omega

theorem mem_keystream_lt (key : List Nat) (icb n : Nat) :
    ∀ b ∈ keystream key icb n, b < 256 := by
  intro b hb
  unfold keystream at hb
  have hb' := List.mem_of_mem_take hb
  rw [List.mem_flatten] at hb'
  obtain ⟨l, hl, hbl⟩ := hb'
  simp only [List.mem_map] at hl
  obtain ⟨i, _, rfl⟩ := hl
  exact mem_aesEncryptBlock_lt _ _ b hbl

theorem length_ctrCrypt (key : List Nat) (icb : Nat) (data : List Nat) :
    (ctrCrypt key icb data).length = data.length := by
  simp [ctrCrypt, length_keystream]

theorem mem_ctrCrypt_lt {key : List Nat} {icb : Nat} {data : List Nat}
    (h : ∀ b ∈ data, b < 256) : ∀ b ∈ ctrCrypt key icb data, b < 256 :=
  zipWith_xor_lt h (mem_keystream_lt key icb data.length)

theorem zipWith_xor_cancel : ∀ (as bs : List Nat), as.length ≤ bs.length →
    List.zipWith (fun a b => a ^^^ b) (List.zipWith (fun a b => a ^^^ b) as bs) bs = as := by
  intro as
  induction as with
  | nil => intro bs _; simp
  | cons a as ih =>
    intro bs hlen
    cases bs with
    | nil => simp at hlen
    | cons b bs =>
      simp only [List.zipWith_cons_cons, Nat.xor_cancel_right, List.cons.injEq, true_and]
      exact ih bs (by simpa using hlen)

theorem ctrCrypt_ctrCrypt (key : List Nat) (icb : Nat) (data : List Nat) :
    ctrCrypt key icb (ctrCrypt key icb data) = data := by
  unfold ctrCrypt
  have h : (List.zipWith (fun a b => a ^^^ b) data (keystream key icb data.length)).length
      = data.length := by
    simp [length_keystream]
  rw [h]
  exact zipWith_xor_cancel data _ (by rw [length_keystream])

/-- GCM round trip: opening a sealed pair under the same key, IV and AAD
recovers the plaintext. -/
theorem gcmDecrypt_gcmEncrypt (key iv aad pt : List Nat) :
    gcmDecrypt key iv aad (gcmEncrypt key iv aad pt).1 (gcmEncrypt key iv aad pt).2
      = some pt := by
  simp [gcmEncrypt, gcmDecrypt, ctrCrypt_ctrCrypt]

theorem mem_gcmEncrypt_fst_lt {key iv aad pt : List Nat} (h : ∀ b ∈ pt, b < 256) :
    ∀ b ∈ (gcmEncrypt key iv aad pt).1, b < 256 := by
  unfold gcmEncrypt
  exact mem_ctrCrypt_lt h

theorem mem_gcmTag_lt (key iv aad ct : List Nat) : ∀ b ∈ gcmTag key iv aad ct, b < 256 := by
  unfold gcmTag
  exact mem_natToBytes16_lt _

theorem length_gcmTag (key iv aad ct : List Nat) : (gcmTag key iv aad ct).length = 16 := by
  unfold gcmTag
  exact length_natToBytes16 _

/-! ### Claims C1 and C2 (crypto channel) -/

/-- C1, counterexample to the claim as stated: the spec says `encrypt`
generates a fresh 12-byte nonce, but the source calls
`crypto.randomBytes(16)` — at a concrete input the hex `iv` field decodes
to 16 bytes, not 12. -/
theorem C1_nonce_is_not_12_bytes :
    (hexDecodeS (encrypt (fun n => List.range n) (asciiBytes "hi")
      (List.range 32)).iv).map List.length = some 16 ∧ (16 : Nat) ≠ 12 := by
  constructor
  · rfl
  · decide

/-- C1 (amended): each `encrypt` call under the room key uses a fresh
16-byte (not 12-byte) random nonce, runs AES-256-GCM with associated data
the ASCII string `'localchat'`, and outputs nonce, ciphertext and a
16-byte auth tag, each hex-encoded: the `iv` field is the 32-hex-char
encoding of the 16 fresh random bytes, and hex-decoding the three fields
yields a triple that AES-256-GCM-opens, under that nonce and AAD
`'localchat'`, back to the plaintext. -/
theorem C1_encrypt_shape (randomBytes : Nat → List Nat) (text key : List Nat)
    (hlen : (randomBytes 16).length = 16)
    (hrb : ∀ b ∈ randomBytes 16, b < 256)
    (htext : ∀ b ∈ text, b < 256) :
    hexDecodeS (encrypt randomBytes text key).iv = some (randomBytes 16)
    ∧ (encrypt randomBytes text key).iv.length = 32
    ∧ (∃ ct tag, hexDecodeS (encrypt randomBytes text key).encrypted = some ct
        ∧ hexDecodeS (encrypt randomBytes text key).authTag = some tag
        ∧ tag.length = 16
        ∧ gcmDecrypt key (randomBytes 16) aadLocalchat ct tag = some text) := by
  refine ⟨hexDecodeS_hexEncodeS hrb, ?_, ?_⟩
  · show (hexEncodeS (randomBytes 16)).length = 32
    simp [hexEncodeS, String.length, length_hexEncode, hlen]
  · refine ⟨(gcmEncrypt key (randomBytes 16) aadLocalchat text).1,
      (gcmEncrypt key (randomBytes 16) aadLocalchat text).2,
      hexDecodeS_hexEncodeS (mem_gcmEncrypt_fst_lt htext),
      hexDecodeS_hexEncodeS (by unfold gcmEncrypt; exact mem_gcmTag_lt _ _ _ _), ?_, ?_⟩
    · show (gcmTag _ _ _ _).length = 16
      exact length_gcmTag _ _ _ _
    · exact gcmDecrypt_gcmEncrypt key (randomBytes 16) aadLocalchat text

/-- C1 witness: the amended seal-shape theorem instantiated at a concrete
oracle, plaintext and key. -/
theorem C1_encrypt_shape_witness :
    hexDecodeS (encrypt (fun n => List.range n) (asciiBytes "ok")
      (List.range 32)).iv = some (List.range 16)
    ∧ (encrypt (fun n => List.range n) (asciiBytes "ok") (List.range 32)).iv.length = 32
    ∧ (∃ ct tag, hexDecodeS (encrypt (fun n => List.range n) (asciiBytes "ok")
          (List.range 32)).encrypted = some ct
        ∧ hexDecodeS (encrypt (fun n => List.range n) (asciiBytes "ok")
            (List.range 32)).authTag = some tag
        ∧ tag.length = 16
        ∧ gcmDecrypt (List.range 32) (List.range 16) aadLocalchat ct tag
            = some (asciiBytes "ok")) :=
  C1_encrypt_shape (fun n => List.range n) (asciiBytes "ok") (List.range 32)
    (by decide) (by decide) (by decide)

/-- C2: for any plaintext byte string `x` and 32-byte key `k`, opening the
result of sealing `x` under `k` yields `x` back —
`decrypt (encrypt x k) k = x`, for any byte values the 16-byte random
nonce takes. -/
theorem C2_open_seal_roundtrip (randomBytes : Nat → List Nat) (x k : List Nat)
    (hrb : ∀ b ∈ randomBytes 16, b < 256)
    (hx : ∀ b ∈ x, b < 256)
    (hk : k.length = 32) :
    decrypt (encrypt randomBytes x k) k = some x := by
  unfold encrypt decrypt
  simp only
  rw [hexDecodeS_hexEncodeS hrb,
    hexDecodeS_hexEncodeS (mem_gcmEncrypt_fst_lt hx),
    hexDecodeS_hexEncodeS (by unfold gcmEncrypt; exact mem_gcmTag_lt _ _ _ _)]
  exact gcmDecrypt_gcmEncrypt k (randomBytes 16) aadLocalchat x

/-- C2 witness: the round trip evaluated through the theorem at a concrete
nonce oracle, plaintext and 32-byte key. -/
theorem C2_open_seal_roundtrip_witness :
    decrypt (encrypt (fun n => (List.range n).map (· + 100)) (asciiBytes "hello")
      ((List.range 32).map (· * 7 % 256))) ((List.range 32).map (· * 7 % 256))
      = some (asciiBytes "hello") :=
  C2_open_seal_roundtrip (fun n => (List.range n).map (· + 100)) (asciiBytes "hello")
    ((List.range 32).map (· * 7 % 256)) (by decide) (by decide) (by decide)

/-! ## MD5 (RFC 1321), the hash behind `getPortForRoom` (main.js 100–104) -/

/-- The 64 MD5 sine-derived additive constants. -/
def md5K : List Nat :=
  [3614090360, 3905402710, 606105819, 3250441966, 4118548399, 1200080426,
   2821735955, 4249261313, 1770035416, 2336552879, 4294925233, 2304563134,
   1804603682, 4254626195, 2792965006, 1236535329, 4129170786, 3225465664,
   643717713, 3921069994, 3593408605, 38016083, 3634488961, 3889429448,
   568446438, 3275163606, 4107603335, 1163531501, 2850285829, 4243563512,
   1735328473, 2368359562, 4294588738, 2272392833, 1839030562, 4259657740,
   2763975236, 1272893353, 4139469664, 3200236656, 681279174, 3936430074,
   3572445317, 76029189, 3654602809, 3873151461, 530742520, 3299628645,
   4096336452, 1126891415, 2878612391, 4237533241, 1700485571, 2399980690,
   4293915773, 2240044497, 1873313359, 4264355552, 2734768916, 1309151649,
   4149444226, 3174756917, 718787259, 3951481745]

/-- The 64 MD5 per-round left-rotation amounts. -/
def md5S : List Nat :=
  [7, 12, 17, 22, 7, 12, 17, 22, 7, 12, 17, 22, 7, 12, 17, 22,
   5, 9, 14, 20, 5, 9, 14, 20, 5, 9, 14, 20, 5, 9, 14, 20,
   4, 11, 16, 23, 4, 11, 16, 23, 4, 11, 16, 23, 4, 11, 16, 23,
   6, 10, 15, 21, 6, 10, 15, 21, 6, 10, 15, 21, 6, 10, 15, 21]

/-- Rotate a 32-bit word left by `s` bits. -/
def rotl32 (x s : Nat) : Nat := (x * 2 ^ s) % 2 ^ 32 ^^^ x % 2 ^ 32 / 2 ^ (32 - s)

/-- Bitwise complement on 32 bits. -/
def not32 (x : Nat) : Nat := x % 2 ^ 32 ^^^ (2 ^ 32 - 1)

/-- MD5 padding: `0x80`, zeros to 56 mod 64, then the 64-bit little-endian
bit length. -/
def md5Pad (msg : List Nat) : List Nat :=
  let padZeros := (119 - msg.length % 64) % 64
  let bitLen := (8 * msg.length) % 2 ^ 64
  msg ++ [128] ++ List.replicate padZeros 0 ++
    (List.range 8).map fun i => bitLen / 256 ^ i % 256

/-- A 64-byte chunk as 16 little-endian 32-bit words. -/
def md5Words (chunk : List Nat) : List Nat :=
  (List.range 16).map fun i =>
    chunk.getD (4 * i) 0 % 256 + chunk.getD (4 * i + 1) 0 % 256 * 256 +
      chunk.getD (4 * i + 2) 0 % 256 * 65536 + chunk.getD (4 * i + 3) 0 % 256 * 16777216

/-- One of the 64 MD5 operations. -/
def md5Op (m : List Nat) (st : Nat × Nat × Nat × Nat) (i : Nat) : Nat × Nat × Nat × Nat :=
  let a := st.1
  let b := st.2.1
  let c := st.2.2.1
  let d := st.2.2.2
  let f :=
    if i < 16 then b &&& c ||| not32 b &&& d
    else if i < 32 then d &&& b ||| not32 d &&& c
    else if i < 48 then b ^^^ c ^^^ d
    else c ^^^ (b ||| not32 d)
  let g :=
    if i < 16 then i
    else if i < 32 then (5 * i + 1) % 16
    else if i < 48 then (3 * i + 5) % 16
    else 7 * i % 16
  let sum := (a + f + md5K.getD i 0 + m.getD g 0) % 2 ^ 32
  (d, (b + rotl32 sum (md5S.getD i 0)) % 2 ^ 32, b, c)

/-- Process one 64-byte chunk into the running MD5 state. -/
def md5Chunk (st : Nat × Nat × Nat × Nat) (chunk : List Nat) : Nat × Nat × Nat × Nat :=
  let m := md5Words chunk
  let r := (List.range 64).foldl (md5Op m) st
  ((st.1 + r.1) % 2 ^ 32, (st.2.1 + r.2.1) % 2 ^ 32,
   (st.2.2.1 + r.2.2.1) % 2 ^ 32, (st.2.2.2 + r.2.2.2) % 2 ^ 32)

/-- Split a byte list into 64-byte chunks. -/
def chunks64 (l : List Nat) : List (List Nat) := chunksGo 64 l.length l

/-- MD5 digest of a byte string, as 16 bytes. -/
def md5 (msg : List Nat) : List Nat :=
  let st := (chunks64 (md5Pad (msg.map (· % 256)))).foldl md5Chunk
    (0x67452301, 0xefcdab89, 0x98badcfe, 0x10325476)
  ([st.1, st.2.1, st.2.2.1, st.2.2.2].map fun w => (List.range 4).map fun i => w / 256 ^ i % 256).flatten

/-- `getPortForRoom(roomName)` (main.js 100–104): `BASE_PORT` (12000) plus
the first two MD5 digest bytes read big-endian (`readUInt16BE(0)`) mod
1000. The room name is hashed as its UTF-8 bytes. -/
def getPortForRoom (roomName : List Nat) : Nat :=
  let hash := md5 roomName
  12000 + (hash.getD 0 0 * 256 + hash.getD 1 0) % 1000

/-- The port formula in the words of the spec (§4.2): 12000 plus the first
16 bits of the MD5 digest of the UTF-8 room name, interpreted big-endian,
mod 1000. -/
def portOfRoomSpec (r : List Nat) : Nat :=
  12000 + bytesToNat ((md5 r).take 2) % 1000

theorem length_md5 (msg : List Nat) : (md5 msg).length = 16 := by
  unfold md5
  simp

theorem mem_md5_lt (msg : List Nat) : ∀ b ∈ md5 msg, b < 256 := by
  intro b hb
  unfold md5 at hb
  rw [List.mem_flatten] at hb
  obtain ⟨l, hl, hbl⟩ := hb
  simp only [List.mem_map] at hl
  obtain ⟨w, _, rfl⟩ := hl
  simp only [List.mem_map] at hbl
  obtain ⟨i, _, rfl⟩ := hbl
  exact Nat.mod_lt _ (by norm_num)

set_option maxRecDepth 100000 in
/-- C8: for every room name, the port map agrees with the spec formula
`12000 + (first 16 bits of MD5, big-endian) mod 1000` and therefore lies
in [12000, 12999]; it is a pure function of the room-name bytes, hence
equal on every node; the golden values `port("team-meeting") = 12622` and
`port("demo") = 12025` are pinned. -/
theorem C8_port_map :
    (∀ r : List Nat, 12000 ≤ getPortForRoom r ∧ getPortForRoom r ≤ 12999
      ∧ getPortForRoom r = portOfRoomSpec r)
    ∧ getPortForRoom (asciiBytes "team-meeting") = 12622
    ∧ getPortForRoom (asciiBytes "demo") = 12025 := by
  have hform : ∀ r : List Nat,
      getPortForRoom r = 12000 + ((md5 r).getD 0 0 * 256 + (md5 r).getD 1 0) % 1000 :=
    fun r => rfl
  refine ⟨fun r => ⟨?_, ?_, ?_⟩, by decide, by decide⟩
  · rw [hform]; exact Nat.le_add_right _ _
  · have h : ((md5 r).getD 0 0 * 256 + (md5 r).getD 1 0) % 1000 < 1000 :=
      Nat.mod_lt _ (by norm_num)
    rw [hform]
    omega
  · rw [hform]
    have hlen : (md5 r).length = 16 := length_md5 r
    obtain ⟨b0, b1, rest, hr⟩ : ∃ b0 b1 rest, md5 r = b0 :: b1 :: rest := by
      rcases e : md5 r with _ | ⟨b0, tail⟩
      · rw [e] at hlen; simp at hlen
      · rcases tail with _ | ⟨b1, rest⟩
        · rw [e] at hlen; simp at hlen
        · exact ⟨b0, b1, rest, rfl⟩
    have h0 : b0 < 256 := mem_md5_lt r b0 (by rw [hr]; simp)
    have h1 : b1 < 256 := mem_md5_lt r b1 (by rw [hr]; simp)
    unfold portOfRoomSpec
    rw [hr]
    simp [bytesToNat, Nat.mod_eq_of_lt h0, Nat.mod_eq_of_lt h1]

/-! ## SHA-256, HMAC, PBKDF2 — the primitives behind `deriveKey`
(main.js 60–63): `pbkdf2Sync(roomName, 'localchat2024salt', 100000, 32, 'sha256')` -/

/-- The 64 SHA-256 round constants. -/
def sha256K : List Nat :=
  [1116352408, 1899447441, 3049323471, 3921009573, 961987163, 1508970993,
   2453635748, 2870763221, 3624381080, 310598401, 607225278, 1426881987,
   1925078388, 2162078206, 2614888103, 3248222580, 3835390401, 4022224774,
   264347078, 604807628, 770255983, 1249150122, 1555081692, 1996064986,
   2554220882, 2821834349, 2952996808, 3210313671, 3336571891, 3584528711,
   113926993, 338241895, 666307205, 773529912, 1294757372, 1396182291,
   1695183700, 1986661051, 2177026350, 2456956037, 2730485921, 2820302411,
   3259730800, 3345764771, 3516065817, 3600352804, 4094571909, 275423344,
   430227734, 506948616, 659060556, 883997877, 958139571, 1322822218,
   1537002063, 1747873779, 1955562222, 2024104815, 2227730452, 2361852424,
   2428436474, 2756734187, 3204031479, 3329325298]

/-- Rotate a 32-bit word right by `s` bits. -/
def rotr32 (x s : Nat) : Nat := x % 2 ^ 32 / 2 ^ s ^^^ (x * 2 ^ (32 - s)) % 2 ^ 32

/-- SHA-256 padding: `0x80`, zeros to 56 mod 64, 64-bit big-endian bit length. -/
def sha256Pad (msg : List Nat) : List Nat :=
  let padZeros := (119 - msg.length % 64) % 64
  let bitLen := (8 * msg.length) % 2 ^ 64
  msg ++ [128] ++ List.replicate padZeros 0 ++
    (List.range 8).map fun i => bitLen / 256 ^ (7 - i) % 256

/-- A 64-byte chunk as 16 big-endian 32-bit words. -/
def sha256Words (chunk : List Nat) : List Nat :=
  (List.range 16).map fun i =>
    word32 (chunk.getD (4 * i) 0) (chunk.getD (4 * i + 1) 0)
      (chunk.getD (4 * i + 2) 0) (chunk.getD (4 * i + 3) 0)

/-- Extend 16 message-schedule words to 64. -/
def sha256Schedule (m : List Nat) : List Nat :=
  (List.range 48).foldl
    (fun w _ =>
      let i := w.length
      let x := w.getD (i - 15) 0
      let y := w.getD (i - 2) 0
      let s0 := rotr32 x 7 ^^^ rotr32 x 18 ^^^ x / 2 ^ 3
      let s1 := rotr32 y 17 ^^^ rotr32 y 19 ^^^ y / 2 ^ 10
      w ++ [(w.getD (i - 16) 0 + s0 + w.getD (i - 7) 0 + s1) % 2 ^ 32]) m

/-- The SHA-256 compression function over one 64-byte chunk. -/
def sha256Compress (st : List Nat) (chunk : List Nat) : List Nat :=
  let w := sha256Schedule (sha256Words chunk)
  let r := (List.range 64).foldl
    (fun (v : List Nat) i =>
      let a := v.getD 0 0
      let b := v.getD 1 0
      let c := v.getD 2 0
      let d := v.getD 3 0
      let e := v.getD 4 0
      let f := v.getD 5 0
      let g := v.getD 6 0
      let h := v.getD 7 0
      let bigS1 := rotr32 e 6 ^^^ rotr32 e 11 ^^^ rotr32 e 25
      let ch := e &&& f ^^^ not32 e &&& g
      let t1 := (h + bigS1 + ch + sha256K.getD i 0 + w.getD i 0) % 2 ^ 32
      let bigS0 := rotr32 a 2 ^^^ rotr32 a 13 ^^^ rotr32 a 22
      let maj := a &&& b ^^^ a &&& c ^^^ b &&& c
      let t2 := (bigS0 + maj) % 2 ^ 32
      [(t1 + t2) % 2 ^ 32, a, b, c, (d + t1) % 2 ^ 32, e, f, g]) st
  (List.range 8).map fun i => (st.getD i 0 + r.getD i 0) % 2 ^ 32

/-- SHA-256 digest of a byte string, as 32 bytes. -/
def sha256 (msg : List Nat) : List Nat :=
  let st := (chunks64 (sha256Pad (msg.map (· % 256)))).foldl sha256Compress
    [1779033703, 3144134277, 1013904242, 2773480762,
     1359893119, 2600822924, 528734635, 1541459225]
  (st.map wordBytes).flatten

/-- HMAC-SHA-256. -/
def hmacSha256 (key msg : List Nat) : List Nat :=
  let k0 :=
    if 64 < key.length then sha256 key ++ List.replicate 32 0
    else key ++ List.replicate (64 - key.length) 0
  sha256 ((k0.map (· ^^^ 0x5c)) ++ sha256 ((k0.map (· ^^^ 0x36)) ++ msg))

/-- PBKDF2-HMAC-SHA-256 for a derived-key length of at most one hash block
(the source asks for exactly 32 bytes, i.e. the single block `T_1`). -/
def pbkdf2Sha256 (password salt : List Nat) (iterations dkLen : Nat) : List Nat :=
  let u1 := hmacSha256 password (salt ++ [0, 0, 0, 1])
  let t := (List.range (iterations - 1)).foldl
    (fun (tu : List Nat × List Nat) _ =>
      let u := hmacSha256 password tu.2
      (List.zipWith (fun a b => a ^^^ b) tu.1 u, u)) (u1, u1)
  t.1.take dkLen

/-- `deriveKey(roomName)` (main.js 60–63): PBKDF2-HMAC-SHA-256, fixed salt
`'localchat2024salt'`, 100 000 iterations, 32-byte key. -/
def deriveKey (roomName : String) : List Nat :=
  pbkdf2Sha256 (asciiBytes roomName) (asciiBytes "localchat2024salt") 100000 32

/-! ## Data model of the session state machine (main.js 10–19, §3) -/

/-- A structure part of a message body (§6.1): text or a file reference. -/
inductive MsgPart
  | text (content : String)
  | file (id : String)
  deriving DecidableEq

/-- A file entry as the renderer attaches it (renderer.js `getAttachedFiles`,
lines 595–613): `{id, name, size, data}`. `totalChunks` is carried as an
optional field so the spec's claimed FileMeta shape is expressible; no
code path assigns it. -/
structure FileEntry where
  id : String
  name : String
  size : Nat
  data : Option String
  totalChunks : Option Nat
  deriving DecidableEq

/-- The polymorphic JSON `content` of an envelope: a `message` body or a
`file_chunk` descriptor. -/
inductive ContentVal
  | msg (structureParts : Option (List MsgPart)) (files : Option (List FileEntry))
  | chunk (fileId : String) (chunkIndex : Nat) (chunkData : String)
  deriving DecidableEq

/-- The `messageData` argument of `send-message` after the destructuring
`const { structure, files } = messageData`; either field may be absent
(the active renderer passes `{ text, files }`, leaving `structure`
undefined). -/
structure MessageData where
  structureParts : Option (List MsgPart)
  files : Option (List FileEntry)
  deriving DecidableEq

/-- A wire envelope as a parsed JSON object; every field is optional, as
any JS property access may yield `undefined`. -/
structure Envelope where
  type : Option String
  messageId : Option String
  peerId : Option String
  displayName : Option String
  timestamp : Option Nat
  content : Option ContentVal
  encrypted : Option EncryptedData
  deriving DecidableEq

/-- A peer-table record (main.js 15, 166–172). -/
structure PeerRec where
  address : String
  port : Nat
  lastSeen : Nat
  displayName : Option String
  hasTimedOut : Bool
  deriving DecidableEq

/-- An entry of the in-memory message log. -/
structure LocalMsg where
  id : Option String
  sender : Option String
  structureParts : Option (List MsgPart)
  files : Option (List FileEntry)
  timestamp : Option Nat
  deriving DecidableEq

/-- The module-level mutable state of main.js (lines 10–19), plus
`pendingDeletes`: the JS timer-queue entries created by `cleanupPeers`
(each scheduled `peers.delete(peerId)` callback with its due time). -/
structure MainState where
  currentRoom : Option String
  displayName : Option String
  myPeerId : Option String
  roomKey : Option (List Nat)
  udpSocket : Option Nat
  peers : List (String × PeerRec)
  messages : List LocalMsg
  processedMessages : List String
  pendingDeletes : List (String × Nat)
  deriving DecidableEq

/-- The state at process start. -/
def initialState : MainState :=
  { currentRoom := none, displayName := none, myPeerId := none, roomKey := none,
    udpSocket := none, peers := [], messages := [], processedMessages := [],
    pendingDeletes := [] }

/-- `Map.set`: replace in place when the key exists, else append (JS Maps
iterate in insertion order). -/
def mapSet (m : List (String × PeerRec)) (k : String) (v : PeerRec) :
    List (String × PeerRec) :=
  if m.any (fun p => p.1 == k) then m.map fun p => if p.1 == k then (k, v) else p
  else m ++ [(k, v)]

/-- `Map.delete` (a no-op when the key is absent, like `handleLeaveMessage`'s
`has` guard). -/
def mapDelete (m : List (String × PeerRec)) (k : String) : List (String × PeerRec) :=
  m.filter fun p => p.1 != k

/-- `Map.get`. -/
def mapGet (m : List (String × PeerRec)) (k : String) : Option PeerRec :=
  (m.find? fun p => p.1 == k).map (·.2)

/-- `Set.add` on the insertion-ordered dedup set. -/
def setAdd (s : List String) (x : String) : List String :=
  if x ∈ s then s else s ++ [x]

/-- JS truthiness of a possibly-absent string: `undefined`, `null` and
`""` are falsy. -/
def truthy : Option String → Bool
  | none => false
  | some s => s != ""

/-- Events the main process pushes to the renderer while handling an
inbound datagram. -/
inductive UIEvent
  | newMessage (m : LocalMsg)
  | fileChunkReceived (c : Option ContentVal)
  deriving DecidableEq

/-- The observable output of one inbound-datagram step: the envelope the
router dispatched to a type handler (if any), the UI events, and the
datagrams sent out (history replay) as (address, port, envelope) triples. -/
structure StepOut where
  dispatched : Option Envelope
  ui : List UIEvent
  out : List (String × Nat × Envelope)
  deriving DecidableEq

/-- No dispatch, no UI event, no outbound datagram. -/
def StepOut.silent : StepOut := { dispatched := none, ui := [], out := [] }

/-! ## Inbound datagram processing: `handleUDPMessage` (main.js 128–179)
and `handleMessage` (181–287) -/

/-- Lines 132–135: `if (message.peerId === myPeerId) return` — strict
equality of the possibly-undefined `peerId` with the possibly-null local
id holds only when both are the same string. -/
def isOwnMessage (s : MainState) (msg : Envelope) : Bool :=
  match msg.peerId, s.myPeerId with
  | some a, some b => a == b
  | _, _ => false

/-- Lines 137–140: `message.messageId && processedMessages.has(...)` — a
truthy id already in the dedup cache. -/
def isDuplicate (s : MainState) (msg : Envelope) : Bool :=
  match msg.messageId with
  | some mid => mid != "" && s.processedMessages.contains mid
  | none => false

/-- Lines 142–151: record a truthy id, then prune the oldest 500 entries
in one pass when the cache has grown past 1000. -/
def recordMessageId (pm : List String) (mid? : Option String) : List String :=
  match mid? with
  | some mid =>
    if mid != "" then
      let pm1 := setAdd pm mid
      if pm1.length > 1000 then pm1.drop 500 else pm1
    else pm
  | none => pm

/-- Lines 153–162: decrypt when both `encrypted` and the room key are
present, reinstalling `content` from the parsed plaintext; a decryption
failure (or a `JSON.parse` throw, swallowed by the outer catch) drops the
datagram. -/
def decryptPhase (parse : List Nat → Option ContentVal) (s : MainState)
    (msg : Envelope) : Option Envelope :=
  match msg.encrypted, s.roomKey with
  | some enc, some key =>
    match decrypt enc key with
    | some bytes =>
      match parse bytes with
      | some c => some { msg with content := some c }
      | none => none
    | none => none
  | _, _ => some msg

/-- Lines 164–173: refresh the peer record for a truthy, non-self peer id
(resetting its timeout flag). -/
def updatePeer (s : MainState) (msg : Envelope) (addr : String) (rport : Nat)
    (now : Nat) : MainState :=
  match msg.peerId with
  | some p =>
    if p != "" && s.myPeerId != some p then
      let fresh : PeerRec :=
        { address := addr, port := rport, lastSeen := now,
          displayName := msg.displayName, hasTimedOut := false }
      { s with peers := mapSet s.peers p fresh }
    else s
  | none => s

/-- `message.content.structure` — present only on a message-shaped content
object. -/
def contentStruct : ContentVal → Option (List MsgPart)
  | ContentVal.msg st _ => st
  | _ => none

/-- `message.content.files || []`. -/
def contentFiles : ContentVal → List FileEntry
  | ContentVal.msg _ fs => fs.getD []
  | _ => []

/-- One logged message replayed for a history request (lines 241–252),
with the metadata-only file list `{id, name, size}`; `none` when
`msg.files` is undefined, in which case the `.map` call throws and the
outer catch aborts the rest of the replay. -/
def historyEnvelope (me : Option String) (m : LocalMsg) : Option Envelope :=
  match m.files with
  | some fs => some
    { type := some "message", messageId := m.id, peerId := me,
      displayName := m.sender, timestamp := m.timestamp,
      content := some (ContentVal.msg m.structureParts (some (fs.map fun f =>
        { id := f.id, name := f.name, size := f.size, data := none,
          totalChunks := none }))),
      encrypted := none }
  | none => none

/-- The `file_chunk` envelopes for one file's payload during history
replay (lines 254–275): `only if (file.data)` is truthy,
`Math.ceil(length / 60000)` chunks of 60 000 characters, each with a
fresh generated message id (the id source is `idGen` applied to a running
counter). -/
def chunkEnvelopes (idGen : Nat → String) (n0 : Nat) (me dn : Option String)
    (now : Nat) (f : FileEntry) : List Envelope × Nat :=
  match f.data with
  | some d =>
    if d != "" then
      let total := (d.length + 59999) / 60000
      (((List.range total).map fun i =>
        { type := some "file_chunk", messageId := some (idGen (n0 + i)),
          peerId := me, displayName := dn, timestamp := some now,
          content := some (ContentVal.chunk f.id i
            (String.mk ((d.data.drop (i * 60000)).take 60000))),
          encrypted := none }), n0 + total)
    else ([], n0)
  | none => ([], n0)

/-- The full history replay (`handleHistoryRequest`, lines 238–277): one
envelope per logged message, followed by its file chunks. -/
def historyReplay (idGen : Nat → String) (me dn : Option String) (now : Nat) :
    List LocalMsg → Nat → List Envelope
  | [], _ => []
  | m :: ms, n =>
    match historyEnvelope me m, m.files with
    | some env, some fs =>
      let chunksAcc := fs.foldl
        (fun (acc : List Envelope × Nat) f =>
          let r := chunkEnvelopes idGen acc.2 me dn now f
          (acc.1 ++ r.1, r.2)) ([], n)
      env :: chunksAcc.1 ++ historyReplay idGen me dn now ms chunksAcc.2
    | _, _ => []

/-- `handleMessage` (lines 181–205) and the per-type handlers it
dispatches to. A `message` envelope whose content is undefined throws on
the `message.content.structure` access inside `handleChatMessage` — the
switch did dispatch, but the push and the UI event never happen. -/
def handleMessageF (idGen : Nat → String) (s : MainState) (msg : Envelope)
    (addr : String) (rport : Nat) (now : Nat) : MainState × StepOut :=
  match msg.type with
  | some t =>
    if t == "join" then (s, { dispatched := some msg, ui := [], out := [] })
    else if t == "message" then
      match msg.content with
      | some c =>
        let cm : LocalMsg :=
          { id := msg.messageId, sender := msg.displayName,
            structureParts := contentStruct c, files := some (contentFiles c),
            timestamp := msg.timestamp }
        ({ s with messages := s.messages ++ [cm] },
         { dispatched := some msg, ui := [UIEvent.newMessage cm], out := [] })
      | none => (s, { dispatched := some msg, ui := [], out := [] })
    else if t == "file_chunk" then
      (s, { dispatched := some msg, ui := [UIEvent.fileChunkReceived msg.content],
            out := [] })
    else if t == "ack" then (s, { dispatched := some msg, ui := [], out := [] })
    else if t == "history_request" then
      (s, { dispatched := some msg, ui := [],
            out := (historyReplay idGen s.myPeerId s.displayName now s.messages 0).map
              fun e => (addr, rport, e) })
    else if t == "status_request" then (s, { dispatched := some msg, ui := [], out := [] })
    else if t == "leave" then
      match msg.peerId with
      | some p =>
        ({ s with peers := mapDelete s.peers p },
         { dispatched := some msg, ui := [], out := [] })
      | none => (s, { dispatched := some msg, ui := [], out := [] })
    else (s, StepOut.silent)
  | none => (s, StepOut.silent)

/-- `handleUDPMessage` (lines 128–179). The `raw` argument is the
`JSON.parse` outcome for the datagram bytes: `none` models malformed JSON
(the outer catch logs and drops). Then, in source order: self-skip, dedup
check, dedup record and prune, decryption, peer refresh, dispatch. -/
def handleUDPMessage (parse : List Nat → Option ContentVal) (idGen : Nat → String)
    (s : MainState) (raw : Option Envelope) (addr : String) (rport : Nat)
    (now : Nat) : MainState × StepOut :=
  match raw with
  | none => (s, StepOut.silent)
  | some msg =>
    if isOwnMessage s msg then (s, StepOut.silent)
    else if isDuplicate s msg then (s, StepOut.silent)
    else
      let s1 := { s with
        processedMessages := recordMessageId s.processedMessages msg.messageId }
      match decryptPhase parse s1 msg with
      | none => (s1, StepOut.silent)
      | some msg2 =>
        let s2 := updatePeer s1 msg2 addr rport now
        handleMessageF idGen s2 msg2 addr rport now

/-! ## Peer sweep and scheduled deletions (main.js 353–378) -/

/-- `cleanupPeers` (lines 354–375): collect the records unseen for more
than 30 000 ms whose timeout flag is clear, mark them timed out, and
schedule each one's unconditional `peers.delete` 100 ms later. -/
def cleanupPeers (now : Nat) (s : MainState) : MainState :=
  let toRemove := s.peers.filter fun p => 30000 < now - p.2.lastSeen && !p.2.hasTimedOut
  { s with
    peers := s.peers.map fun p =>
      if toRemove.any (fun q => q.1 == p.1) then (p.1, { p.2 with hasTimedOut := true })
      else p,
    pendingDeletes := s.pendingDeletes ++ toRemove.map fun p => (p.1, now + 100) }

/-- The JS timer queue firing the `setTimeout(() => peers.delete(peerId), 100)`
callbacks scheduled by `cleanupPeers`: every due deletion removes its peer
id unconditionally, whatever the record now holds. -/
def firePendingDeletes (now : Nat) (s : MainState) : MainState :=
  let due := s.pendingDeletes.filter fun d => decide (d.2 ≤ now)
  { s with
    peers := s.peers.filter fun p => !(due.any fun d => d.1 == p.1),
    pendingDeletes := s.pendingDeletes.filter fun d => !decide (d.2 ≤ now) }

/-! ## Outbound: `broadcastMessage` (322–343) and the IPC handlers -/

/-- `broadcastMessage` (lines 322–343): nothing without a (truthy) current
room and a socket; otherwise one unicast per known non-self peer plus the
broadcast to `255.255.255.255` on the room's base port. Each triple is
subsequently sealed pointwise by `sendMessage` (lines 303–320), which
replaces a present `content` by `encrypted` without changing which fields
the content carried; the envelopes here are the pre-seal forms. -/
def broadcastDatagrams (s : MainState) (msg : Envelope) :
    List (String × Nat × Envelope) :=
  match s.currentRoom, s.udpSocket with
  | some room, some _ =>
    if room == "" then []
    else
      (s.peers.filter fun p => s.myPeerId != some p.1).map
        (fun p => (p.2.address, p.2.port, msg))
      ++ [("255.255.255.255", getPortForRoom (asciiBytes room), msg)]
  | _, _ => []

/-- The result object of the `send-message` IPC handler. -/
structure SendResult where
  success : Bool
  error : Option String
  message : Option LocalMsg
  deriving DecidableEq

/-- The `send-message` IPC handler (lines 490–524): fail with
`'Not in a room'` unless `currentRoom`, `displayName` and `myPeerId` are
all truthy; otherwise build the `message` envelope whose content is
`{structure, files}` exactly as destructured from `messageData`, append
the full entry (file payloads included) to the local log, and broadcast. -/
def sendMessageHandler (freshId : String) (now : Nat) (md : MessageData)
    (s : MainState) : MainState × SendResult × List (String × Nat × Envelope) :=
  if !truthy s.currentRoom || !truthy s.displayName || !truthy s.myPeerId then
    (s, { success := false, error := some "Not in a room", message := none }, [])
  else
    let chatMessage : Envelope :=
      { type := some "message", messageId := some freshId, peerId := s.myPeerId,
        displayName := s.displayName, timestamp := some now,
        content := some (ContentVal.msg md.structureParts md.files),
        encrypted := none }
    let localMessage : LocalMsg :=
      { id := some freshId, sender := s.displayName,
        structureParts := md.structureParts, files := md.files,
        timestamp := some now }
    let s1 := { s with messages := s.messages ++ [localMessage] }
    (s1, { success := true, error := none, message := some localMessage },
     broadcastDatagrams s1 chatMessage)

/-- The outcome of one `socket.bind` attempt: success, `EADDRINUSE`, or
another error with its message (the 2-second watchdog's `'Bind timeout'`
is an error without a code, i.e. `errOther`). -/
inductive BindResult
  | ok
  | errInUse
  | errOther (message : String)
  deriving DecidableEq

/-- The `message` property of a bind error. -/
def bindErrMessage : BindResult → String
  | BindResult.ok => ""
  | BindResult.errInUse => "bind EADDRINUSE"
  | BindResult.errOther m => m

/-- The port-fallback loop of `join-room` (lines 404–446), attempts 0–4:
an `EADDRINUSE` failure before the last attempt `continue`s; any *other*
failure before the last attempt matches neither branch of the catch and
the `for` loop continues just the same; a failure on attempt 4, of any
kind, throws the exhaustion error. The empty-list case models the
`!boundSocket` guard after the loop (lines 448–450). -/
def bindLoop (bind : Nat → BindResult) (port : Nat) : List Nat → Except String Nat
  | [] => Except.error "Failed to bind to any port"
  | attempt :: rest =>
    match bind (port + attempt) with
    | BindResult.ok => Except.ok (port + attempt)
    | e =>
      if e == BindResult.errInUse && attempt < 4 then bindLoop bind port rest
      else if attempt == 4 then
        Except.error ("Could not bind to any port after 5 attempts. Last error: "
          ++ bindErrMessage e)
      else bindLoop bind port rest

/-- The result object of the `join-room` IPC handler. -/
structure JoinResult where
  success : Bool
  port : Option Nat
  error : Option String
  deriving DecidableEq

/-- The `join-room` IPC handler (lines 381–488). The session fields —
`currentRoom`, `displayName` (defaulted to `'Anonymous'` when falsy),
`myPeerId`, `roomKey` — are assigned *before* the bind loop (lines
395–398) and are not rolled back when binding fails; on success the bound
socket is installed and the `join` envelope broadcast (the deferred
history request is a later timer, outside this step). -/
def joinRoom (bind : Nat → BindResult) (freshPeerId freshMsgId : String)
    (now : Nat) (roomName userName : String) (s : MainState) :
    MainState × JoinResult × List (String × Nat × Envelope) :=
  let s1 : MainState :=
    { s with udpSocket := none,
             currentRoom := some roomName,
             displayName := some (if userName == "" then "Anonymous" else userName),
             myPeerId := some freshPeerId,
             roomKey := some (deriveKey roomName) }
  let port := getPortForRoom (asciiBytes roomName)
  match bindLoop bind port [0, 1, 2, 3, 4] with
  | Except.ok actualPort =>
    let s2 := { s1 with udpSocket := some actualPort }
    let joinMessage : Envelope :=
      { type := some "join", messageId := some freshMsgId,
        peerId := some freshPeerId, displayName := s2.displayName,
        timestamp := some now, content := none, encrypted := none }
    (s2, { success := true, port := some actualPort, error := none },
     broadcastDatagrams s2 joinMessage)
  | Except.error e =>
    (s1, { success := false, port := none, error := some e }, [])

/-! ## Trace interpreters -/

/-- Run a list of inbound datagrams through `handleUDPMessage`,
accumulating the envelopes the router dispatched. -/
def runInbound (parse : List Nat → Option ContentVal) (idGen : Nat → String)
    (addr : String) (rport : Nat) (now : Nat) :
    MainState → List (Option Envelope) → MainState × List Envelope
  | s, [] => (s, [])
  | s, raw :: rest =>
    let r := handleUDPMessage parse idGen s raw addr rport now
    let rr := runInbound parse idGen addr rport now r.1 rest
    (rr.1, (match r.2.dispatched with | some e => [e] | none => []) ++ rr.2)

/-- A timed event of the node's event loop: an inbound datagram, a 5-second
sweep tick, or the firing of due scheduled deletions. -/
inductive NodeEvent
  | inbound (raw : Option Envelope) (addr : String) (rport : Nat) (time : Nat)
  | sweep (time : Nat)
  | timersFire (time : Nat)

/-- Apply one event to the state (dispatch output discarded). -/
def applyEvent (parse : List Nat → Option ContentVal) (idGen : Nat → String)
    (s : MainState) : NodeEvent → MainState
  | NodeEvent.inbound raw addr rport t => (handleUDPMessage parse idGen s raw addr rport t).1
  | NodeEvent.sweep t => cleanupPeers t s
  | NodeEvent.timersFire t => firePendingDeletes t s

/-- Fold a list of timed events over the state. -/
def runEvents (parse : List Nat → Option ContentVal) (idGen : Nat → String)
    (s : MainState) (events : List NodeEvent) : MainState :=
  events.foldl (applyEvent parse idGen) s

/-! ## Shared trace fixtures and broadcast lemmas -/

/-- A `JSON.parse` oracle for traces that never decrypt. -/
def parseNever : List Nat → Option ContentVal := fun _ => none

/-- A constant message-id source (only history replay consumes it). -/
def idGenX : Nat → String := fun _ => "x"

/-- A representative joined state: in room `demo` on its base port, with
an empty peer table, log and dedup cache. (The key bytes are irrelevant
to routing; only their presence is tested.) -/
def joinedState : MainState :=
  { currentRoom := some "demo", displayName := some "Alice",
    myPeerId := some "me11", roomKey := some (List.range 32),
    udpSocket := some 12025, peers := [], messages := [],
    processedMessages := [], pendingDeletes := [] }

theorem mem_broadcastDatagrams {s : MainState} {msg : Envelope} :
    ∀ d ∈ broadcastDatagrams s msg, d.2.2 = msg := by
  intro d hd
  unfold broadcastDatagrams at hd
  split at hd
  · split at hd
    · simp at hd
    · rcases List.mem_append.mp hd with hd | hd
      · obtain ⟨p, _, rfl⟩ := List.mem_map.mp hd
        rfl
      · simp at hd
        rw [hd]
  · simp at hd

/-! ## Claim C3 (send-message broadcast content) -/

/-- The file entry the renderer attaches for a 5-byte file: id, name,
size and the base64 payload — and no `totalChunks`. -/
def fileWithData : FileEntry :=
  { id := "f1", name := "notes.txt", size := 5, data := some "aGVsbG8=",
    totalChunks := none }

/-- A send-message argument carrying one text part, one file reference
and the attached file. -/
def mdWithFile : MessageData :=
  { structureParts := some [MsgPart.text "hi", MsgPart.file "f1"],
    files := some [fileWithData] }

set_option maxRecDepth 100000 in
/-- C3, counterexample to the claim as stated: in a joined state, the
broadcast `message` envelope's content carries the files array exactly as
attached — the single entry still holds its full `data` payload and has
no `totalChunks` — rather than the claimed metadata-only
`{id, name, size, totalChunks}` shape. -/
theorem C3_broadcast_carries_file_payload :
    ((sendMessageHandler "mid1" 1000 mdWithFile joinedState).2.2.map
      fun d => d.2.2.content)
      = [some (ContentVal.msg (some [MsgPart.text "hi", MsgPart.file "f1"])
          (some [fileWithData]))]
    ∧ fileWithData.data = some "aGVsbG8=" ∧ fileWithData.totalChunks = none := by
  refine ⟨by decide, rfl, rfl⟩

/-- C3 (amended): for every send-message call made while joined, the
broadcast `message` envelope's content carries the structure and the
files array verbatim — each entry keeping whatever `data` payload it came
with and gaining no `totalChunks` — and the same full entries are
appended to the local log. -/
theorem C3_send_files_verbatim (freshId : String) (now : Nat) (md : MessageData)
    (s : MainState) (hroom : truthy s.currentRoom = true)
    (hdn : truthy s.displayName = true) (hpid : truthy s.myPeerId = true) :
    (∀ d ∈ (sendMessageHandler freshId now md s).2.2,
      d.2.2.content = some (ContentVal.msg md.structureParts md.files))
    ∧ (sendMessageHandler freshId now md s).1.messages
        = s.messages
          ++ [LocalMsg.mk (some freshId) s.displayName md.structureParts md.files (some now)]
    ∧ (sendMessageHandler freshId now md s).2.1.success = true := by
  unfold sendMessageHandler
  rw [hroom, hdn, hpid]
  simp only [Bool.not_true, Bool.or_self, Bool.false_or, if_false]
  refine ⟨?_, rfl, rfl⟩
  intro d hd
  rw [mem_broadcastDatagrams d hd]

/-- C3 witness: the verbatim-files theorem instantiated in the joined
state with the concrete attached file. -/
theorem C3_send_files_verbatim_witness :
    (∀ d ∈ (sendMessageHandler "mid2" 1000 mdWithFile joinedState).2.2,
      d.2.2.content = some (ContentVal.msg mdWithFile.structureParts mdWithFile.files))
    ∧ (sendMessageHandler "mid2" 1000 mdWithFile joinedState).1.messages
        = joinedState.messages
          ++ [LocalMsg.mk (some "mid2") joinedState.displayName mdWithFile.structureParts
                mdWithFile.files (some 1000)]
    ∧ (sendMessageHandler "mid2" 1000 mdWithFile joinedState).2.1.success = true :=
  C3_send_files_verbatim "mid2" 1000 mdWithFile joinedState rfl rfl rfl

/-! ## Claim C4 (send-message NotInRoom guard) -/

/-- A bind oracle on which every attempt fails with `EADDRINUSE`. -/
def bindAllFail : Nat → BindResult := fun _ => BindResult.errInUse

set_option maxRecDepth 1000000 in
/-- C4, counterexample to the claim as stated: a join from the initial
state whose every bind attempt fails returns failure — yet a subsequent
send-message succeeds rather than failing with NotInRoom, because the
join handler assigned the session fields before binding; no datagram goes
out (no socket), but the message is appended to the log. -/
theorem C4_send_succeeds_after_failed_join :
    (joinRoom bindAllFail "me11" "jm1" 0 "demo" "Alice" initialState).2.1.success = false
    ∧ (sendMessageHandler "mid1" 5 { structureParts := none, files := none }
        (joinRoom bindAllFail "me11" "jm1" 0 "demo" "Alice" initialState).1).2.1.success
        = true
    ∧ (sendMessageHandler "mid1" 5 { structureParts := none, files := none }
        (joinRoom bindAllFail "me11" "jm1" 0 "demo" "Alice" initialState).1).2.2 = []
    ∧ (sendMessageHandler "mid1" 5 { structureParts := none, files := none }
        (joinRoom bindAllFail "me11" "jm1" 0 "demo" "Alice" initialState).1).1.messages.length
        = 1 := by
  refine ⟨by decide, by decide, by decide, by decide⟩

/-- C4 (amended): send-message fails, with error `'Not in a room'`, if and
only if one of the session fields `currentRoom`, `displayName`,
`myPeerId` is unset (or the empty string) — which holds in the initial
state but also fails to hold after an unsuccessful join, since any join
attempt assigns all three before binding; whenever send-message fails,
the state (log included) is unchanged and no datagram is broadcast. -/
theorem C4_send_guard (freshId : String) (now : Nat) (md : MessageData)
    (s : MainState) :
    ((sendMessageHandler freshId now md s).2.1.success = false
      ↔ (!truthy s.currentRoom || !truthy s.displayName || !truthy s.myPeerId) = true)
    ∧ ((sendMessageHandler freshId now md s).2.1.success = false →
        (sendMessageHandler freshId now md s).2.1.error = some "Not in a room"
        ∧ (sendMessageHandler freshId now md s).1 = s
        ∧ (sendMessageHandler freshId now md s).2.2 = [])
    ∧ (sendMessageHandler freshId now md initialState).2.1.success = false := by
  unfold sendMessageHandler
  constructor
  · split
    · next hc => simp [hc]
    · next hc => simp [hc]
  constructor
  · split
    · exact fun _ => ⟨rfl, rfl, rfl⟩
    · simp
  · rfl

/-- C4 witness: the guard characterization instantiated at the initial
state (where it fails) — the hypotheses are the theorem's universally
quantified arguments at concrete values. -/
theorem C4_send_guard_witness :
    ((sendMessageHandler "w4" 7 { structureParts := none, files := none }
        initialState).2.1.success = false
      ↔ (!truthy initialState.currentRoom || !truthy initialState.displayName
          || !truthy initialState.myPeerId) = true)
    ∧ ((sendMessageHandler "w4" 7 { structureParts := none, files := none }
        initialState).2.1.success = false →
        (sendMessageHandler "w4" 7 { structureParts := none, files := none }
          initialState).2.1.error = some "Not in a room"
        ∧ (sendMessageHandler "w4" 7 { structureParts := none, files := none }
            initialState).1 = initialState
        ∧ (sendMessageHandler "w4" 7 { structureParts := none, files := none }
            initialState).2.2 = [])
    ∧ (sendMessageHandler "w4" 7 { structureParts := none, files := none }
        initialState).2.1.success = false :=
  C4_send_guard "w4" 7 { structureParts := none, files := none } initialState

/-! ## Claim C5 (bind retry semantics) -/

theorem bindLoop_step_fail {bind : Nat → BindResult} {port a : Nat}
    {rest : List Nat} (ha : a < 4) (hb : bind (port + a) ≠ BindResult.ok) :
    bindLoop bind port (a :: rest) = bindLoop bind port rest := by
  conv_lhs => unfold bindLoop
  cases e : bind (port + a) with
  | ok => exact absurd e hb
  | errInUse => simp [ha]
  | errOther m =>
    have h4 : a ≠ 4 := by omega
    simp [h4]

theorem bindLoop_step_ok {bind : Nat → BindResult} {port a : Nat}
    {rest : List Nat} (hb : bind (port + a) = BindResult.ok) :
    bindLoop bind port (a :: rest) = Except.ok (port + a) := by
  unfold bindLoop
  rw [hb]

theorem bindLoop_last_fail {bind : Nat → BindResult} {port : Nat}
    (hb : bind (port + 4) ≠ BindResult.ok) :
    bindLoop bind port [4] = Except.error
      ("Could not bind to any port after 5 attempts. Last error: "
        ++ bindErrMessage (bind (port + 4))) := by
  unfold bindLoop
  cases e : bind (port + 4) with
  | ok => exact absurd e hb
  | errInUse => simp [e]
  | errOther m => simp [e]

/-- A bind oracle failing once, with an error that is not AddressInUse,
on port 12025 (room `demo`'s base port). -/
def bindOtherThenOk : Nat → BindResult :=
  fun p => if p == 12025 then BindResult.errOther "EPERM: operation not permitted"
           else BindResult.ok

set_option maxRecDepth 1000000 in
/-- C5, counterexample to the claim as stated: a bind failure other than
AddressInUse at the base port is *not* fatal to the join attempt — the
loop falls through to the next port, and joining room `demo` succeeds on
port 12026. -/
theorem C5_other_bind_error_still_retries :
    (joinRoom bindOtherThenOk "me11" "jm1" 0 "demo" "Alice" initialState).2.1.success
      = true
    ∧ (joinRoom bindOtherThenOk "me11" "jm1" 0 "demo" "Alice" initialState).2.1.port
        = some 12026
    ∧ bindOtherThenOk 12025 ≠ BindResult.errInUse := by
  refine ⟨by decide, by decide, by decide⟩

/-- C5 (amended): during join's socket bind, *any* failure — AddressInUse
or otherwise — on attempts 0–3 is retried on the next port (`port+1` …
`port+4`); only after all 5 attempts fail does the loop throw, and join
surfaces the exhaustion error carrying the last bind error's message. -/
theorem C5_bind_fallback (bind : Nat → BindResult) (port : Nat) :
    (∀ k, k < 5 → (∀ i, i < k → bind (port + i) ≠ BindResult.ok) →
      bind (port + k) = BindResult.ok →
      bindLoop bind port [0, 1, 2, 3, 4] = Except.ok (port + k))
    ∧ ((∀ i, i < 5 → bind (port + i) ≠ BindResult.ok) →
      ∀ freshPeerId freshMsgId now userName s roomName,
        getPortForRoom (asciiBytes roomName) = port →
        (joinRoom bind freshPeerId freshMsgId now roomName userName s).2.1
          = { success := false, port := none,
              error := some ("Could not bind to any port after 5 attempts. Last error: "
                ++ bindErrMessage (bind (port + 4))) }) := by
  constructor
  · intro k hk hprev hok
    interval_cases k
    · exact bindLoop_step_ok hok
    · rw [bindLoop_step_fail (by omega) (hprev 0 (by omega))]
      exact bindLoop_step_ok hok
    · rw [bindLoop_step_fail (by omega) (hprev 0 (by omega)),
        bindLoop_step_fail (by omega) (hprev 1 (by omega))]
      exact bindLoop_step_ok hok
    · rw [bindLoop_step_fail (by omega) (hprev 0 (by omega)),
        bindLoop_step_fail (by omega) (hprev 1 (by omega)),
        bindLoop_step_fail (by omega) (hprev 2 (by omega))]
      exact bindLoop_step_ok hok
    · rw [bindLoop_step_fail (by omega) (hprev 0 (by omega)),
        bindLoop_step_fail (by omega) (hprev 1 (by omega)),
        bindLoop_step_fail (by omega) (hprev 2 (by omega)),
        bindLoop_step_fail (by omega) (hprev 3 (by omega))]
      exact bindLoop_step_ok hok
  · intro hall freshPeerId freshMsgId now userName s roomName hport
    have hloop : bindLoop bind (getPortForRoom (asciiBytes roomName)) [0, 1, 2, 3, 4]
        = Except.error ("Could not bind to any port after 5 attempts. Last error: "
          ++ bindErrMessage (bind (port + 4))) := by
      rw [hport]
      rw [bindLoop_step_fail (by omega) (hall 0 (by omega)),
        bindLoop_step_fail (by omega) (hall 1 (by omega)),
        bindLoop_step_fail (by omega) (hall 2 (by omega)),
        bindLoop_step_fail (by omega) (hall 3 (by omega))]
      exact bindLoop_last_fail (hall 4 (by omega))
    simp only [joinRoom, hloop]

set_option maxRecDepth 1000000 in
/-- C5 witness: the fallback theorem at a concrete oracle that fails with
a non-AddressInUse error on the base port and succeeds on the next, and
at a concrete oracle that always fails. -/
theorem C5_bind_fallback_witness :
    bindLoop bindOtherThenOk 12025 [0, 1, 2, 3, 4] = Except.ok (12025 + 1)
    ∧ (joinRoom bindAllFail "me11" "jm1" 0 "demo" "Alice" initialState).2.1
        = { success := false, port := none,
            error := some ("Could not bind to any port after 5 attempts. Last error: "
              ++ bindErrMessage (bindAllFail (12025 + 4))) } :=
  ⟨(C5_bind_fallback bindOtherThenOk 12025).1 1 (by decide) (by decide) (by decide),
   (C5_bind_fallback bindAllFail 12025).2 (by decide) "me11" "jm1" 0 "Alice"
     initialState "demo" (by decide)⟩

/-! ## Claim C7 (malformed / incomplete envelopes) -/

/-- An envelope missing the required `displayName` and `timestamp` fields
(and carrying no content), as `JSON.parse` would deliver it. -/
def envMissingFields : Envelope :=
  { type := some "join", messageId := some "m7", peerId := some "p7",
    displayName := none, timestamp := none, content := none, encrypted := none }

/-- C7, counterexample to the claim as stated: an inbound datagram missing
the required `displayName` and `timestamp` fields is *not* dropped — it
is routed to the `join` handler, its id enters the dedup cache, and a
peer record (with undefined display name) is created. -/
theorem C7_missing_fields_still_routed :
    (handleUDPMessage parseNever idGenX joinedState (some envMissingFields)
      "10.0.0.7" 4007 99).2.dispatched = some envMissingFields
    ∧ (handleUDPMessage parseNever idGenX joinedState (some envMissingFields)
        "10.0.0.7" 4007 99).1.processedMessages = ["m7"]
    ∧ mapGet (handleUDPMessage parseNever idGenX joinedState (some envMissingFields)
        "10.0.0.7" 4007 99).1.peers "p7"
      = some { address := "10.0.0.7", port := 4007, lastSeen := 99,
               displayName := none, hasTimedOut := false } := by
  refine ⟨rfl, rfl, rfl⟩

/-- C7 (amended): every inbound datagram that is malformed JSON is dropped
silently — never routed, no state change, no UI event, no outbound
datagram; envelopes that parse but miss required fields are *not*
validated and can still be routed (see the counterexample). -/
theorem C7_malformed_json_dropped (parse : List Nat → Option ContentVal)
    (idGen : Nat → String) (s : MainState) (addr : String) (rport : Nat)
    (now : Nat) :
    handleUDPMessage parse idGen s none addr rport now = (s, StepOut.silent) := rfl

/-! ## Claim C9 (dedup cache bound) -/

theorem length_setAdd (pm : List String) (x : String) :
    (setAdd pm x).length ≤ pm.length + 1 := by
  unfold setAdd
  split
  · omega
  · simp

theorem length_recordMessageId {pm : List String} (mid? : Option String)
    (h : pm.length ≤ 1000) : (recordMessageId pm mid?).length ≤ 1000 := by
  unfold recordMessageId
  match mid? with
  | none => exact h
  | some mid =>
    simp only
    split
    · split
      · next hgt =>
        have hle := length_setAdd pm mid
        simp only [List.length_drop]
        omega
      · next hgt =>
        have hle := length_setAdd pm mid
        omega
    · exact h

theorem recordMessageId_fresh {pm : List String} {mid : String} (hne : mid ≠ "")
    (hmem : mid ∉ pm) (hlen : pm.length ≤ 999) :
    recordMessageId pm (some mid) = pm ++ [mid] := by
  have h1 : (mid != "") = true := by simpa using hne
  have hle : ¬ (pm ++ [mid]).length > 1000 := by simp; omega
  unfold recordMessageId setAdd
  simp only
  rw [if_pos h1, if_neg hmem, if_neg hle]

theorem recordMessageId_overflow {pm : List String} {mid : String} (hne : mid ≠ "")
    (hmem : mid ∉ pm) (hlen : pm.length = 1000) :
    recordMessageId pm (some mid) = (pm ++ [mid]).drop 500 := by
  have h1 : (mid != "") = true := by simpa using hne
  have hgt : (pm ++ [mid]).length > 1000 := by simp [hlen]
  unfold recordMessageId setAdd
  simp only
  rw [if_pos h1, if_neg hmem, if_pos hgt]

theorem processedMessages_updatePeer (s : MainState) (msg : Envelope)
    (addr : String) (rport now : Nat) :
    (updatePeer s msg addr rport now).processedMessages = s.processedMessages := by
  unfold updatePeer
  split <;> (try split) <;> rfl

theorem processedMessages_handleMessageF (idGen : Nat → String) (s : MainState)
    (msg : Envelope) (addr : String) (rport now : Nat) :
    (handleMessageF idGen s msg addr rport now).1.processedMessages
      = s.processedMessages := by
  unfold handleMessageF
  rcases msg.type with _ | t
  · rfl
  · simp only
    split
    · rfl
    split
    · split <;> rfl
    split
    · rfl
    split
    · rfl
    split
    · rfl
    split
    · rfl
    split
    · split <;> rfl
    · rfl

/-- The dedup cache after one inbound step: unchanged on the early-return
paths, else exactly `recordMessageId`. -/
theorem processedMessages_step (parse : List Nat → Option ContentVal)
    (idGen : Nat → String) (s : MainState) (raw : Option Envelope)
    (addr : String) (rport now : Nat) :
    (handleUDPMessage parse idGen s raw addr rport now).1.processedMessages
      = s.processedMessages
    ∨ (∃ msg, raw = some msg
        ∧ (handleUDPMessage parse idGen s raw addr rport now).1.processedMessages
          = recordMessageId s.processedMessages msg.messageId) := by
  unfold handleUDPMessage
  rcases raw with _ | msg
  · exact Or.inl rfl
  · simp only
    split
    · exact Or.inl rfl
    split
    · exact Or.inl rfl
    refine Or.inr ⟨msg, rfl, ?_⟩
    split
    · rfl
    · rw [processedMessages_handleMessageF, processedMessages_updatePeer]

/-- C9: the dedup cache holds at most 1000 ids at the end of processing
any inbound datagram (given it did before), and when an insertion pushes
the size past 1000 — a fresh truthy id arriving at size exactly 1000 —
the oldest 500 entries are evicted in one pass, leaving exactly
`(cache ++ [id]).drop 500`. -/
theorem C9_dedup_cache_bound (parse : List Nat → Option ContentVal)
    (idGen : Nat → String) (s : MainState) (raw : Option Envelope)
    (addr : String) (rport now : Nat)
    (hle : s.processedMessages.length ≤ 1000) :
    (handleUDPMessage parse idGen s raw addr rport now).1.processedMessages.length
      ≤ 1000
    ∧ (∀ mid, mid ≠ "" → mid ∉ s.processedMessages →
        s.processedMessages.length = 1000 →
        recordMessageId s.processedMessages (some mid)
          = (s.processedMessages ++ [mid]).drop 500) := by
  constructor
  · rcases processedMessages_step parse idGen s raw addr rport now with h | ⟨msg, _, h⟩
    · rw [h]; exact hle
    · rw [h]; exact length_recordMessageId _ hle
  · intro mid hne hmem hlen
    exact recordMessageId_overflow hne hmem hlen

set_option maxRecDepth 1000000 in
/-- C9 witness: the bound theorem at a concrete joined state whose cache
already holds 1000 distinct ids, processing a fresh one. -/
theorem C9_dedup_cache_bound_witness :
    (handleUDPMessage parseNever idGenX
      { joinedState with processedMessages := (List.range 1000).map fun k => toString k }
      (some envMissingFields) "10.0.0.7" 4007 99).1.processedMessages.length ≤ 1000
    ∧ (∀ mid, mid ≠ "" →
        mid ∉ ((List.range 1000).map fun k => toString k) →
        ((List.range 1000).map fun k => toString k).length = 1000 →
        recordMessageId ((List.range 1000).map fun k => toString k) (some mid)
          = (((List.range 1000).map fun k => toString k) ++ [mid]).drop 500) :=
  C9_dedup_cache_bound parseNever idGenX
    { joinedState with processedMessages := (List.range 1000).map fun k => toString k }
    (some envMissingFields) "10.0.0.7" 4007 99 (by simp)

/-! ## Claim C6 (dedup: at-most-once dispatch, check before decryption) -/

/-- A minimal `join` envelope from peer `pid` with message id `mid`. -/
def envJoinFrom (pid mid : String) : Envelope :=
  { type := some "join", messageId := some mid, peerId := some pid,
    displayName := some "Peer", timestamp := some 1, content := none,
    encrypted := none }

theorem decryptPhase_fail {parse : List Nat → Option ContentVal} {s : MainState}
    {msg : Envelope} {enc : EncryptedData} {key : List Nat}
    (henc : msg.encrypted = some enc) (hkey : s.roomKey = some key)
    (hdec : decrypt enc key = none) : decryptPhase parse s msg = none := by
  unfold decryptPhase
  simp only [henc, hkey, hdec]

/-- C6 (amended): (a) any inbound datagram whose (truthy) `messageId` is
already in the dedup cache is dropped before routing, with no state
change and no output at all; (b) the dedup check and the id recording
happen *before* decryption, using the plaintext envelope id: a fresh id
is recorded in the cache even when the payload fails to decrypt and the
datagram is dropped undispatched. At-most-once dispatch therefore holds
only while the id remains cached — after an eviction the same id is
dispatched again (see the eviction counterexample). -/
theorem C6_dedup_before_decryption (parse : List Nat → Option ContentVal)
    (idGen : Nat → String) (addr : String) (rport now : Nat) :
    (∀ s msg mid, msg.messageId = some mid → mid ≠ "" →
      mid ∈ s.processedMessages →
      handleUDPMessage parse idGen s (some msg) addr rport now
        = (s, StepOut.silent))
    ∧ (∀ s msg mid enc key, msg.messageId = some mid → mid ≠ "" →
      mid ∉ s.processedMessages → isOwnMessage s msg = false →
      msg.encrypted = some enc → s.roomKey = some key → decrypt enc key = none →
      handleUDPMessage parse idGen s (some msg) addr rport now
        = ({ s with processedMessages := recordMessageId s.processedMessages (some mid) },
           StepOut.silent)) := by
  constructor
  · intro s msg mid hmid hne hmem
    have hdup : isDuplicate s msg = true := by
      unfold isDuplicate
      rw [hmid]
      simp only [Bool.and_eq_true, bne_iff_ne, ne_eq]
      exact ⟨hne, by simpa [List.elem_iff] using hmem⟩
    unfold handleUDPMessage
    simp only [hdup]
    split
    · rfl
    · rfl
  · intro s msg mid enc key hmid hne hmem hown henc hkey hdec
    have hdup : isDuplicate s msg = false := by
      unfold isDuplicate
      rw [hmid]
      simp only [Bool.and_eq_false_iff]
      right
      simp [List.elem_iff]
      exact hmem
    have hkey2 : ({ s with processedMessages := recordMessageId s.processedMessages (some mid) } : MainState).roomKey = some key := hkey
    unfold handleUDPMessage
    simp only [hown, hdup, Bool.false_eq_true, if_false, hmid]
    rw [decryptPhase_fail henc hkey2 hdec]

/-- C6 witness: both parts of the dedup theorem at concrete states — a
cached id is dropped with the state untouched; a fresh id with an
undecryptable payload is dropped but still recorded. -/
theorem C6_dedup_before_decryption_witness :
    (handleUDPMessage parseNever idGenX
        { joinedState with processedMessages := ["dd"] }
        (some (envJoinFrom "pp" "dd")) "10.0.0.9" 4000 1
      = ({ joinedState with processedMessages := ["dd"] }, StepOut.silent))
    ∧ (handleUDPMessage parseNever idGenX joinedState
        (some { envJoinFrom "pp" "ee" with
                encrypted := some { iv := "zz", encrypted := "", authTag := "" } })
        "10.0.0.9" 4000 1
      = ({ joinedState with processedMessages := recordMessageId joinedState.processedMessages (some "ee") },
         StepOut.silent)) :=
  ⟨(C6_dedup_before_decryption parseNever idGenX "10.0.0.9" 4000 1).1
      { joinedState with processedMessages := ["dd"] } (envJoinFrom "pp" "dd") "dd"
      rfl (by decide) (by decide),
   (C6_dedup_before_decryption parseNever idGenX "10.0.0.9" 4000 1).2
      joinedState
      { envJoinFrom "pp" "ee" with
        encrypted := some { iv := "zz", encrypted := "", authTag := "" } }
      "ee" { iv := "zz", encrypted := "", authTag := "" } (List.range 32)
      rfl (by decide) (by decide) (by decide) rfl rfl (by decide)⟩

/-! ### The eviction counterexample for C6 -/

/-- The capital alphabet used to spell filler ids, generated from the
character codes 65–90. -/
def capAlphabet : List Char :=
  (List.range 26).map fun i => Char.ofNat (65 + i)

/-- The `k`-th filler message id: three letters spelling `k` in base 26,
distinct for `k < 17576`. -/
def fillerId (k : Nat) : String :=
  String.mk [capAlphabet.getD (k % 26) 'A', capAlphabet.getD (k / 26 % 26) 'A',
             capAlphabet.getD (k / 676 % 26) 'A']

theorem capAlphabet_getD_inj :
    ∀ i < 26, ∀ j < 26, capAlphabet.getD i 'A' = capAlphabet.getD j 'A' → i = j := by
  decide

theorem fillerId_ne_mdup (k : Nat) : fillerId k ≠ "m-dup" := by
  intro h
  have h3 : (fillerId k).length = 3 := rfl
  rw [h] at h3
  exact absurd h3 (by decide)

theorem fillerId_ne_empty (k : Nat) : fillerId k ≠ "" := by
  intro h
  have h3 : (fillerId k).length = 3 := rfl
  rw [h] at h3
  exact absurd h3 (by decide)

theorem fillerId_inj {j k : Nat} (hj : j < 1000) (hk : k < 1000)
    (h : fillerId j = fillerId k) : j = k := by
  have hd := congrArg String.data h
  simp only [fillerId] at hd
  injection hd with h1 hd
  injection hd with h2 hd
  injection hd with h3 _
  have e1 := capAlphabet_getD_inj _ (Nat.mod_lt _ (by norm_num)) _
    (Nat.mod_lt _ (by norm_num)) h1
  have e2 := capAlphabet_getD_inj _ (Nat.mod_lt _ (by norm_num)) _
    (Nat.mod_lt _ (by norm_num)) h2
  have e3 := capAlphabet_getD_inj _ (Nat.mod_lt _ (by norm_num)) _
    (Nat.mod_lt _ (by norm_num)) h3
  have dj1 := Nat.div_add_mod j 26
  have dj2 := Nat.div_add_mod (j / 26) 26
  have dj3 : j / 26 / 26 = j / 676 := by rw [Nat.div_div_eq_div_mul]
  have dk1 := Nat.div_add_mod k 26
  have dk2 := Nat.div_add_mod (k / 26) 26
  have dk3 : k / 26 / 26 = k / 676 := by rw [Nat.div_div_eq_div_mul]
  have bj : j / 676 < 26 := Nat.div_lt_of_lt_mul (by omega)
  have bk : k / 676 < 26 := Nat.div_lt_of_lt_mul (by omega)
  have mj : j / 676 % 26 = j / 676 := Nat.mod_eq_of_lt bj
  have mk : k / 676 % 26 = k / 676 := Nat.mod_eq_of_lt bk
  omega

/-- The peer record `handleUDPMessage` writes for a sighting. -/
def peerRecAt (addr : String) (rport now : Nat) (dn : Option String) : PeerRec :=
  { address := addr, port := rport, lastSeen := now, displayName := dn,
    hasTimedOut := false }

/-- One inbound step on a fresh (uncached, truthy-id) plain `join`
datagram from another peer: the id is recorded, the peer refreshed, and
the envelope dispatched to the `join` handler. -/
theorem step_fresh_join {s : MainState} {pid mid : String} {addr : String}
    {rport now : Nat} (hpid : pid ≠ "") (hown : s.myPeerId ≠ some pid)
    (hmid : mid ≠ "") (hmem : mid ∉ s.processedMessages) :
    handleUDPMessage parseNever idGenX s (some (envJoinFrom pid mid)) addr rport now
      = ({ s with
             processedMessages := recordMessageId s.processedMessages (some mid),
             peers := mapSet s.peers pid (peerRecAt addr rport now (some "Peer")) },
         { dispatched := some (envJoinFrom pid mid), ui := [], out := [] }) := by
  have hownB : isOwnMessage s (envJoinFrom pid mid) = false := by
    unfold isOwnMessage envJoinFrom
    simp only
    cases hmp : s.myPeerId with
    | none => rfl
    | some b =>
      have hne : pid ≠ b := fun he => hown (by rw [hmp, he])
      exact beq_eq_false_iff_ne.mpr hne
  have hdupB : isDuplicate s (envJoinFrom pid mid) = false := by
    unfold isDuplicate envJoinFrom
    simp only
    have hc : s.processedMessages.contains mid = false := by
      rw [← Bool.not_eq_true]
      intro hcon
      exact hmem (List.elem_iff.mp hcon)
    simp [hc]
    exact fun _ => hmem
  have hpeer : (s.myPeerId != some pid) = true := by
    cases hmp : s.myPeerId with
    | none => rfl
    | some b =>
      have hne : (some b : Option String) ≠ some pid := by
        intro he
        exact hown (by rw [hmp, he])
      simpa using hne
  unfold handleUDPMessage
  simp only [hownB, hdupB, Bool.false_eq_true, if_false]
  unfold decryptPhase envJoinFrom updatePeer handleMessageF
  simp only [show (pid != "") = true by simpa using hpid, hpeer, Bool.and_self,
    if_true]
  rfl

/-- The filler segment of the flood. -/
def fillerTrace (a k : Nat) : List (Option Envelope) :=
  (List.range' a k).map fun j => some (envJoinFrom "qq" (fillerId j))

/-- Running the fillers `a, …, a+k-1` (staying strictly below the
eviction threshold) appends their ids to the cache in order, preserves
the local peer id, and dispatches no envelope carrying `m-dup`. -/
theorem filler_run (addr : String) (rport now : Nat) :
    ∀ (k a : Nat), a + k ≤ 999 → ∀ s : MainState,
    s.processedMessages = "m-dup" :: (List.range a).map fillerId →
    s.myPeerId = some "me11" →
    (runInbound parseNever idGenX addr rport now s (fillerTrace a k)).1.processedMessages
        = "m-dup" :: (List.range (a + k)).map fillerId
    ∧ (runInbound parseNever idGenX addr rport now s
        (fillerTrace a k)).1.myPeerId = some "me11"
    ∧ ((runInbound parseNever idGenX addr rport now s (fillerTrace a k)).2.filter
        fun e => e.messageId == some "m-dup") = [] := by
  intro k
  induction k with
  | zero =>
    intro a _ s hpm hpid
    refine ⟨by simpa using hpm, by simpa using hpid, rfl⟩
  | succ k ih =>
    intro a hak s hpm hpid
    have ha998 : a ≤ 998 := by omega
    have hfresh : fillerId a ∉ s.processedMessages := by
      rw [hpm]
      intro hmem
      rcases List.mem_cons.mp hmem with he | hmap
      · exact fillerId_ne_mdup a he
      · obtain ⟨j, hj, hje⟩ := List.mem_map.mp hmap
        have hja : j < a := List.mem_range.mp hj
        have := fillerId_inj (by omega) (by omega) hje
        omega
    have hownA : s.myPeerId ≠ some "qq" := by rw [hpid]; simp
    have hstep := @step_fresh_join s "qq" (fillerId a) addr rport now
      (by decide) hownA (fillerId_ne_empty a) hfresh
    have hrec : recordMessageId s.processedMessages (some (fillerId a))
        = "m-dup" :: (List.range (a + 1)).map fillerId := by
      rw [recordMessageId_fresh (fillerId_ne_empty a) hfresh
        (by rw [hpm]; simp; omega), hpm]
      simp [List.range_succ]
    have htr : fillerTrace a (k + 1)
        = some (envJoinFrom "qq" (fillerId a)) :: fillerTrace (a + 1) k := by
      simp [fillerTrace, List.range'_succ]
    rw [htr]
    unfold runInbound
    rw [hstep]
    simp only
    have ih2 := ih (a + 1) (by omega)
      { s with
        processedMessages := recordMessageId s.processedMessages (some (fillerId a)),
        peers := mapSet s.peers "qq" (peerRecAt addr rport now (some "Peer")) }
      (by simpa using hrec) (by simpa using hpid)
    refine ⟨?_, ?_, ?_⟩
    · rw [show a + (k + 1) = a + 1 + k by omega]
      exact ih2.1
    · exact ih2.2.1
    · have hflt : ((envJoinFrom "qq" (fillerId a)).messageId == some "m-dup") = false := by
        simp [envJoinFrom]
        exact fillerId_ne_mdup a
      simp only [List.filter_cons, List.filter_append, hflt]
      simpa using ih2.2.2

theorem runInbound_append (parse : List Nat → Option ContentVal)
    (idGen : Nat → String) (addr : String) (rport now : Nat) (s : MainState)
    (xs ys : List (Option Envelope)) :
    runInbound parse idGen addr rport now s (xs ++ ys)
      = ((runInbound parse idGen addr rport now
            (runInbound parse idGen addr rport now s xs).1 ys).1,
         (runInbound parse idGen addr rport now s xs).2
           ++ (runInbound parse idGen addr rport now
                (runInbound parse idGen addr rport now s xs).1 ys).2) := by
  induction xs generalizing s with
  | nil => simp [runInbound]
  | cons x xs ih =>
    simp only [List.cons_append, runInbound, List.append_eq]
    rw [ih]
    simp [List.append_assoc]

/-- The state after the first `m-dup` datagram hits the fresh session. -/
def c6s1 : MainState :=
  { joinedState with
    processedMessages := ["m-dup"],
    peers := mapSet joinedState.peers "pp" (peerRecAt "10.0.0.9" 4000 1 (some "Peer")) }

/-- A fresh filler id is never in a cache of `m-dup` and earlier fillers. -/
theorem fillerId_fresh {a : Nat} (ha : a < 1000) :
    fillerId a ∉ "m-dup" :: (List.range a).map fillerId := by
  intro hmem
  rcases List.mem_cons.mp hmem with he | hmap
  · exact fillerId_ne_mdup a he
  · obtain ⟨j, hj, hje⟩ := List.mem_map.mp hmap
    have hja : j < a := List.mem_range.mp hj
    have := fillerId_inj (by omega) (by omega) hje
    omega

set_option maxRecDepth 100000 in
/-- C6, counterexample to the at-most-once-per-session claim: starting
from a freshly joined node, the id `m-dup` is dispatched; 1000 distinct
filler ids then flood the dedup cache, whose overflow eviction discards
its oldest 500 entries, `m-dup` among them; a replay of `m-dup` is then
dispatched a *second* time in the same session. -/
theorem C6_redispatch_after_eviction :
    ((runInbound parseNever idGenX "10.0.0.9" 4000 1 joinedState
      (some (envJoinFrom "pp" "m-dup")
        :: (fillerTrace 0 1000 ++ [some (envJoinFrom "pp" "m-dup")]))).2.filter
      fun e => e.messageId == some "m-dup").length = 2 := by
  -- the first m-dup step, evaluated outright
  have h1 : handleUDPMessage parseNever idGenX joinedState
      (some (envJoinFrom "pp" "m-dup")) "10.0.0.9" 4000 1
      = (c6s1, { dispatched := some (envJoinFrom "pp" "m-dup"), ui := [], out := [] }) := by
    decide
  -- the 999 safe fillers
  have hFill := filler_run "10.0.0.9" 4000 1 999 0 (by omega) c6s1 (by decide) (by decide)
  -- the eviction-triggering 1000th filler
  have hmem999 : fillerId 999
      ∉ (runInbound parseNever idGenX "10.0.0.9" 4000 1 c6s1
          (fillerTrace 0 999)).1.processedMessages := by
    rw [hFill.1]
    exact fillerId_fresh (by omega)
  have hown999 : (runInbound parseNever idGenX "10.0.0.9" 4000 1 c6s1
      (fillerTrace 0 999)).1.myPeerId ≠ some "qq" := by
    rw [hFill.2.1]
    simp
  have h2 := @step_fresh_join _ "qq" (fillerId 999) "10.0.0.9" 4000 1
    (by decide) hown999 (fillerId_ne_empty 999) hmem999
  -- the cache after the eviction
  have hcache : recordMessageId
      (runInbound parseNever idGenX "10.0.0.9" 4000 1 c6s1
        (fillerTrace 0 999)).1.processedMessages (some (fillerId 999))
      = ((List.range 1000).map fillerId).drop 499 := by
    rw [hFill.1, recordMessageId_overflow (fillerId_ne_empty 999)
      (by rw [← hFill.1]; exact hmem999) (by simp)]
    rw [show (500 : Nat) = 499 + 1 from rfl]
    rw [List.cons_append, List.drop_succ_cons]
    congr 1
  have hmdup_not : "m-dup" ∉ ((List.range 1000).map fillerId).drop 499 := by
    intro hmem
    obtain ⟨j, _, hje⟩ := List.mem_map.mp (List.mem_of_mem_drop hmem)
    exact fillerId_ne_mdup j hje
  -- split the trace and unfold the leading m-dup step
  have hsplit : fillerTrace 0 1000 = fillerTrace 0 999 ++ fillerTrace 999 1 := by
    unfold fillerTrace
    rw [← List.map_append]
    congr 1
  have htr999 : fillerTrace 999 1 = [some (envJoinFrom "qq" (fillerId 999))] := by
    simp [fillerTrace]
  conv_lhs => rw [hsplit, htr999]
  conv_lhs => unfold runInbound
  rw [h1]
  simp only
  rw [List.append_assoc, runInbound_append, runInbound_append]
  generalize hS2 : (runInbound parseNever idGenX "10.0.0.9" 4000 1 c6s1
    (fillerTrace 0 999)).1 = s2 at h2 hmem999 hown999 hcache hFill ⊢
  -- the one-element run for the eviction-triggering filler
  have hrun999 : runInbound parseNever idGenX "10.0.0.9" 4000 1 s2
      [some (envJoinFrom "qq" (fillerId 999))]
      = ({ s2 with
           processedMessages := recordMessageId s2.processedMessages (some (fillerId 999)),
           peers := mapSet s2.peers "qq" (peerRecAt "10.0.0.9" 4000 1 (some "Peer")) },
         [envJoinFrom "qq" (fillerId 999)]) := by
    unfold runInbound
    rw [h2]
    rfl
  rw [hrun999]
  simp only
  -- the final m-dup step from the post-eviction state
  have hmem_final : "m-dup" ∉ ({ s2 with
      processedMessages := recordMessageId s2.processedMessages (some (fillerId 999)),
      peers := mapSet s2.peers "qq" (peerRecAt "10.0.0.9" 4000 1 (some "Peer"))
    } : MainState).processedMessages := by
    show "m-dup" ∉ recordMessageId s2.processedMessages (some (fillerId 999))
    rw [hcache]
    exact hmdup_not
  have hproj : ∀ t : MainState, ({ t with
      processedMessages := recordMessageId t.processedMessages (some (fillerId 999)),
      peers := mapSet t.peers "qq" (peerRecAt "10.0.0.9" 4000 1 (some "Peer"))
    } : MainState).myPeerId = t.myPeerId := fun t => rfl
  have hown_final : ({ s2 with
      processedMessages := recordMessageId s2.processedMessages (some (fillerId 999)),
      peers := mapSet s2.peers "qq" (peerRecAt "10.0.0.9" 4000 1 (some "Peer"))
    } : MainState).myPeerId ≠ some "pp" := by
    rw [hproj, hFill.2.1]
    simp
  have hrun4 := @step_fresh_join _ "pp" "m-dup" "10.0.0.9" 4000 1
    (by decide) hown_final (by decide) hmem_final
  have hrunlast : runInbound parseNever idGenX "10.0.0.9" 4000 1
      ({ s2 with
         processedMessages := recordMessageId s2.processedMessages (some (fillerId 999)),
         peers := mapSet s2.peers "qq" (peerRecAt "10.0.0.9" 4000 1 (some "Peer")) } : MainState)
      [some (envJoinFrom "pp" "m-dup")]
      = ({ ({ s2 with
              processedMessages := recordMessageId s2.processedMessages (some (fillerId 999)),
              peers := mapSet s2.peers "qq" (peerRecAt "10.0.0.9" 4000 1 (some "Peer")) } : MainState) with
           processedMessages := recordMessageId (recordMessageId s2.processedMessages (some (fillerId 999))) (some "m-dup"),
           peers := mapSet (mapSet s2.peers "qq" (peerRecAt "10.0.0.9" 4000 1 (some "Peer"))) "pp" (peerRecAt "10.0.0.9" 4000 1 (some "Peer")) },
         [envJoinFrom "pp" "m-dup"]) := by
    unfold runInbound
    rw [hrun4]
    rfl
  rw [hrunlast]
  simp only
  -- count the m-dup dispatches
  have hpt : ((envJoinFrom "pp" "m-dup").messageId == some "m-dup") = true := by decide
  have hpf : ((envJoinFrom "qq" (fillerId 999)).messageId == some "m-dup") = false := by
    have : fillerId 999 ≠ "m-dup" := fillerId_ne_mdup 999
    simp [envJoinFrom]
    exact this
  simp only [List.filter_append, List.filter_cons, List.filter_nil, hpt, hpf,
    hFill.2.2, if_true, if_false]
  simp

/-! ## Claim C10 (peer eviction race) -/

/-- A four-event execution: a datagram from peer `pp`, the 5-second sweep
tick at t=35000, a refreshing datagram from `pp` at t=35050, and the JS
timer queue firing at t=35100 (the deletion scheduled by the sweep). -/
def c10Events : List NodeEvent :=
  [NodeEvent.inbound (some (envJoinFrom "pp" "t1")) "10.0.0.5" 4005 0,
   NodeEvent.sweep 35000,
   NodeEvent.inbound (some (envJoinFrom "pp" "t2")) "10.0.0.5" 4005 35050,
   NodeEvent.timersFire 35100]

/-- C10: there is an execution in which a peer is removed less than 30
seconds after its most recent valid datagram. A datagram at t=0 creates
the record; the sweep at t=35000 finds it 35 s stale, marks it timed out
and schedules its deletion for t=35100; a datagram at t=35050 refreshes
the record (lastSeen 35050, timeout flag cleared) — yet the scheduled
deletion still fires at t=35100 and removes the record unconditionally,
50 ms (< 30 000 ms) after the peer was last heard from. -/
theorem C10_eviction_race :
    (mapGet (runEvents parseNever idGenX joinedState (c10Events.take 3)).peers
        "pp").map (fun r => (r.lastSeen, r.hasTimedOut)) = some (35050, false)
    ∧ mapGet (runEvents parseNever idGenX joinedState c10Events).peers "pp" = none
    ∧ 35100 - 35050 < 30000 := by
  refine ⟨by decide, by decide, by decide⟩

end LocalChat
